import Mathlib

/-!
Verification of the GenVideo backend services against their design notes.

The Python services are shallowly embedded: pure functions become Lean
functions over `List Char` / `String` / `Nat`, and every I/O collaborator
(SQLite rows, the filesystem, the LLM and image providers, `random.choice`,
`uuid4`, `hashlib`) is passed in as an explicit parameter, so each embedded
function is the deterministic core of the corresponding Python function.

Unicode granularity: CPython's `\s`, `\d`, `\w`, `str.strip()` and
`str.lower()` are modelled at the ASCII + CJK level actually exercised by
the services (ASCII whitespace, ASCII digits, ASCII word chars plus the
CJK range the code names explicitly); none of the properties below depend
on the exotic-Unicode corners of those classes.
-/

namespace GenVideo

/-! ## Python string primitives -/

/-- Characters accepted by Python `str.strip()` / regex `\s` (ASCII model). -/
def pyIsSpace (c : Char) : Bool :=
  c = ' ' || c = '\t' || c = '\n' || c = '\r' || c = Char.ofNat 11 || c = Char.ofNat 12

/-- Characters of the regex class `[ \t\f\v]` used by the segmentation normalizer. -/
def pyIsBlank (c : Char) : Bool :=
  c = ' ' || c = '\t' || c = Char.ofNat 11 || c = Char.ofNat 12

/-- Python `str.strip()` on a character list. -/
def pyStripList (cs : List Char) : List Char :=
  ((cs.dropWhile pyIsSpace).reverse.dropWhile pyIsSpace).reverse

/-- Python `str.strip()`. -/
def pyStrip (s : String) : String := String.mk (pyStripList s.data)

/-- Python `str.lower()` (ASCII model; the ids and paths the services
lowercase are ASCII). -/
def pyLower (s : String) : String := String.mk (s.data.map Char.toLower)

/-- The apostrophe character, kept out of literals. -/
def apostropheChar : Char := Char.ofNat 39

/-- Collapse a run of blanks (regex `[ \t\f\v]+`) to one space; fuel-driven so
that it reduces in the kernel. Called with `fuel = cs.length`, which a run
never exhausts. -/
def collapseBlankAux : Nat → List Char → List Char
  | 0, _ => []
  | _ + 1, [] => []
  | fuel + 1, c :: rest =>
    if pyIsBlank c then ' ' :: collapseBlankAux fuel (rest.dropWhile pyIsBlank)
    else c :: collapseBlankAux fuel rest

/-- Python `re.sub(r"[ \t\f\v]+", " ", s)`. -/
def collapseBlank (cs : List Char) : List Char := collapseBlankAux cs.length cs

/-- Collapse a run of whitespace (regex `\s+`) to one space, fuel-driven. -/
def collapseWsAux : Nat → List Char → List Char
  | 0, _ => []
  | _ + 1, [] => []
  | fuel + 1, c :: rest =>
    if pyIsSpace c then ' ' :: collapseWsAux fuel (rest.dropWhile pyIsSpace)
    else c :: collapseWsAux fuel rest

/-- Python `re.sub(r"\s+", " ", s)`. -/
def collapseWs (cs : List Char) : List Char := collapseWsAux cs.length cs

/-- Python `"\r\n" → "\n"` then `"\r" → "\n"` (the two `.replace` calls of
`_normalize_segmentation_text`). -/
def normalizeNewlines : List Char → List Char
  | [] => []
  | '\r' :: '\n' :: rest => '\n' :: normalizeNewlines rest
  | '\r' :: rest => '\n' :: normalizeNewlines rest
  | c :: rest => c :: normalizeNewlines rest

/-- Python `str.split(sep)` for a one-character separator (keeps empty parts). -/
def splitOnCharAux (sep : Char) : List Char → List Char → List (List Char)
  | [], acc => [acc.reverse]
  | c :: rest, acc =>
    if c = sep then acc.reverse :: splitOnCharAux sep rest []
    else splitOnCharAux sep rest (c :: acc)

/-- Python `str.split(sep)` for a one-character separator. -/
def splitOnChar (sep : Char) (cs : List Char) : List (List Char) :=
  splitOnCharAux sep cs []

/-- Python `" ".join(parts)` on character lists. -/
def joinWithSpace : List (List Char) → List Char
  | [] => []
  | [p] => p
  | p :: rest => p ++ ' ' :: joinWithSpace rest

/-- Python `sub in s` (substring test). -/
def pyContains (s sub : String) : Bool := decide (sub.data <:+: s.data)

/-- First-occurrence deduplication, as Python code that keeps a `seen` set
while appending to an output list. -/
def dedupFirstAux [DecidableEq α] : List α → List α → List α
  | [], _ => []
  | x :: rest, seen =>
    if x ∈ seen then dedupFirstAux rest seen
    else x :: dedupFirstAux rest (x :: seen)

/-- First-occurrence deduplication. -/
def dedupFirst [DecidableEq α] (l : List α) : List α := dedupFirstAux l []

/-- Insert into a descending-sorted list, after any element with an equal
key (the placement CPython's stable `sorted(..., reverse=True)` gives a
later element). -/
def pySortDescInsert (key : α → Int) (x : α) : List α → List α
  | [] => [x]
  | y :: rest => if key x > key y then x :: y :: rest else y :: pySortDescInsert key x rest

/-- Python `sorted(l, key=key, reverse=True)`: descending and stable. -/
def pySortDesc (key : α → Int) (l : List α) : List α :=
  l.foldl (fun acc x => pySortDescInsert key x acc) []

/-! ## `llm_service._normalize_segmentation_text` -/

namespace LLMService

/-- Drop leading regex-`\s` characters. -/
def dropWs (cs : List Char) : List Char := cs.dropWhile pyIsSpace

/-- The part of the heading regex `^\s*#\s*\d+\s*[（(]\s*\d+\s*句\s*[）)]\s*$`
after the `#`. -/
def matchHeadingTail (cs : List Char) : Bool :=
  let cs := dropWs cs
  if cs.takeWhile Char.isDigit = [] then false else
  match dropWs (cs.dropWhile Char.isDigit) with
  | c :: cs =>
    if c = '（' || c = '(' then
      let cs := dropWs cs
      if cs.takeWhile Char.isDigit = [] then false else
      match dropWs (cs.dropWhile Char.isDigit) with
      | c2 :: cs =>
        if c2 = '句' then
          match dropWs cs with
          | c3 :: cs => (c3 = '）' || c3 = ')') && dropWs cs = []
          | [] => false
        else false
      | [] => false
    else false
  | [] => false

/-- `heading_pattern.match(normalized)` of `_normalize_segmentation_text`. -/
def matchHeading (cs : List Char) : Bool :=
  match dropWs cs with
  | '#' :: rest => matchHeadingTail rest
  | _ => false

/-- `_normalize_segmentation_text`: normalize newlines, per-line collapse
`[ \t\f\v]+` and strip, drop empty and heading-like lines, join with a
space, collapse and strip again. -/
def normalize_segmentation_text (text : String) : List Char :=
  let raw := normalizeNewlines text.data
  let keptLines := (splitOnChar '\n' raw).filterMap (fun line =>
    let normalized := pyStripList (collapseBlank line)
    if normalized = [] then none
    else if matchHeading normalized then none
    else some normalized)
  let merged := joinWithSpace keptLines
  pyStripList (collapseBlank merged)

/-! ## `llm_service._split_sentences_v2` -/

/-- `sentence_delimiters` of `_split_sentences_v2`. -/
def sentenceDelimitersV2 : List Char :=
  ['。', '！', '？', '；', '，', '.', '!', '?', ';', ',']

/-- `opening_marks` of `_split_sentences_v2`. -/
def openingMarksV2 : List Char :=
  ['【', '「', '『', '“', '‘', '（', '(', '[', '\x7b', '"', apostropheChar]

/-- `closing_marks` of `_split_sentences_v2`. -/
def closingMarksV2 : List Char :=
  ['】', ']', '）', ')', '」', '』', '”', '’', '\x7d', '"', apostropheChar]

/-- `_flush()` of `_split_sentences_v2`: strip the buffer and append when
non-empty. -/
def flushSentence (buffer : List Char) (sentences : List String) : List String :=
  let candidate := pyStrip (String.mk buffer)
  if candidate = "" then sentences else sentences ++ [candidate]

/-- The character-walk of `_split_sentences_v2`. `prev` is `clean[index-1]`
(`none` at the start); the fuel equals the remaining length plus one and is
never exhausted since every step consumes at least one character. -/
def splitV2Aux : Nat → Option Char → List Char → List Char → List String → List String
  | 0, _, _, buffer, sentences => flushSentence buffer sentences
  | _ + 1, _, [], buffer, sentences => flushSentence buffer sentences
  | fuel + 1, prev, c :: rest, buffer, sentences =>
    let buffer := buffer ++ [c]
    if sentenceDelimitersV2.contains c then
      let nextDelim := match rest.head? with
        | some n => sentenceDelimitersV2.contains n
        | none => false
      let nextOpening := match rest.head? with
        | some n => openingMarksV2.contains n
        | none => false
      let prevDigit := match prev with
        | some p => p.isDigit
        | none => false
      let nextDigit := match rest.head? with
        | some n => n.isDigit
        | none => false
      if nextDelim then splitV2Aux fuel (some c) rest buffer sentences
      else if nextOpening then splitV2Aux fuel (some c) rest buffer sentences
      else if c = '.' && prevDigit && nextDigit then
        splitV2Aux fuel (some c) rest buffer sentences
      else if c = '?' && prev = some '?' then
        splitV2Aux fuel (some c) rest buffer sentences
      else
        let closers := rest.takeWhile (closingMarksV2.contains ·)
        let rest2 := rest.dropWhile (closingMarksV2.contains ·)
        let newPrev := closers.getLast?.getD c
        splitV2Aux fuel (some newPrev) rest2 [] (flushSentence (buffer ++ closers) sentences)
    else
      splitV2Aux fuel (some c) rest buffer sentences

/-- `_split_sentences_v2(clean)`. -/
def split_sentences_v2 (clean : List Char) : List String :=
  splitV2Aux (clean.length + 1) none clean [] []

/-- `split_sentences(text)`: normalize, return `[]` on empty, else run the
v2 splitter (the v1 code after the `return` is unreachable). -/
def split_sentences (text : String) : List String :=
  let clean := normalize_segmentation_text text
  if clean = [] then [] else split_sentences_v2 clean

end LLMService

/-! ## `segmentation_service` -/

namespace Segmentation

/-- One hexadecimal digit, lowercase. -/
def hexDigit (n : Nat) : Char :=
  if n < 10 then Char.ofNat (48 + n) else Char.ofNat (97 + (n - 10))

/-- JSON escaping of one character as `json.dumps(..., ensure_ascii=False)`
performs it: `"` and `\` are escaped, control characters use the two-letter
escapes or `\u00XX`, everything else is emitted raw. -/
def jsonEscapeChar (c : Char) : List Char :=
  if c = '"' then ['\\', '"']
  else if c = '\\' then ['\\', '\\']
  else if c = Char.ofNat 8 then ['\\', 'b']
  else if c = '\t' then ['\\', 't']
  else if c = '\n' then ['\\', 'n']
  else if c = Char.ofNat 12 then ['\\', 'f']
  else if c = '\r' then ['\\', 'r']
  else if c.toNat < 32 then
    ['\\', 'u', '0', '0', hexDigit (c.toNat / 16), hexDigit (c.toNat % 16)]
  else [c]

/-- A JSON string literal as `json.dumps` emits it. -/
def jsonString (s : String) : String :=
  "\"" ++ String.mk (s.data.map jsonEscapeChar).flatten ++ "\""

/-- `build_segment_request_signature`. `hash` stands for the opaque
`hashlib.sha256(...).hexdigest()` collaborator; the packed payload is the
`json.dumps(..., sort_keys=True, separators=(",", ":"))` serialization of
`{text, method, sentences_per_segment, fixed_size, model_id}` (keys in
sorted order). `model_id = none` in Python is modelled as the empty
string, which `or ""` collapses to the same value. -/
def build_segment_request_signature (hash : String → String)
    (text method : String) (sentences_per_segment fixed_size : Int)
    (model_id : String) : String :=
  let textV := pyStrip text
  let methodV := if method = "" then "sentence" else method
  let spsV : Int := max 1 (if sentences_per_segment = 0 then 1 else sentences_per_segment)
  let fsV : Int := max 20 (if fixed_size = 0 then 120 else fixed_size)
  let modelV := pyStrip model_id
  let packed := "\x7b\"fixed_size\":" ++ toString fsV
    ++ ",\"method\":" ++ jsonString methodV
    ++ ",\"model_id\":" ++ jsonString modelV
    ++ ",\"sentences_per_segment\":" ++ toString spsV
    ++ ",\"text\":" ++ jsonString textV ++ "\x7d"
  hash packed

/-- `_clean_segments`: strip every item, drop the empty ones. -/
def clean_segments (items : List String) : List String :=
  items.filterMap (fun item =>
    let text := pyStrip item
    if text = "" then none else some text)

/-- `resolve_precomputed_segments`: `none` models Python `None` (fall back to
recomputation), `some` returns the accepted precomputed vector. -/
def resolve_precomputed_segments (hash : String → String)
    (text method : String) (sentences_per_segment fixed_size : Int)
    (model_id request_signature : String) (precomputed_segments : List String) :
    Option (List String) :=
  let provided := pyStrip request_signature
  if provided = "" then none
  else
    let expected := build_segment_request_signature hash text method
      sentences_per_segment fixed_size model_id
    if provided ≠ expected then none
    else
      let cleaned := clean_segments precomputed_segments
      if cleaned = [] then none else some cleaned

/-! ### `select_segments_by_range` -/

/-- The chain of `.replace` calls normalizing Chinese punctuation in a range
spec (each replaces one character by one character). -/
def normalizeRangeChar (c : Char) : Char :=
  if c = '，' || c = '；' || c = ';' then ','
  else if c = '～' || c = '~' || c = '—' || c = '–' || c = '到' then '-'
  else c

/-- `re.fullmatch(r"\d+", part)` together with `int(part)`. -/
def allDigits (cs : List Char) : Bool := !cs.isEmpty && cs.all (·.isDigit)

/-- `int(...)` over a digit run. -/
def digitsToNat (cs : List Char) : Nat :=
  cs.foldl (fun a c => a * 10 + (c.toNat - 48)) 0

/-- `re.fullmatch(r"-?\d+", part)` together with `int(part)`. -/
def matchSignedInt (cs : List Char) : Option Int :=
  match cs with
  | '-' :: rest => if allDigits rest then some (-(digitsToNat rest : Int)) else none
  | _ => if allDigits cs then some (digitsToNat cs : Int) else none

/-- `re.fullmatch(r"(\d+)\s*-\s*(\d+)", part)` with both captured groups. -/
def matchRangeToken (cs : List Char) : Option (Nat × Nat) :=
  let d1 := cs.takeWhile Char.isDigit
  if d1 = [] then none else
  match (cs.dropWhile Char.isDigit).dropWhile pyIsSpace with
  | '-' :: rest2 =>
    let rest3 := rest2.dropWhile pyIsSpace
    let d2 := rest3.takeWhile Char.isDigit
    if d2 = [] then none
    else if rest3.dropWhile Char.isDigit = [] then
      some (digitsToNat d1, digitsToNat d2)
    else none
  | _ => none

/-- The comma-separated, stripped, non-empty tokens of a range spec (the
`parts` list of `select_segments_by_range`). -/
def rangeSpecParts (range_spec : String) : List (List Char) :=
  let raw := pyStripList range_spec.data
  let normalized := raw.map normalizeRangeChar
  ((splitOnChar ',' normalized).map pyStripList).filter (· ≠ [])

/-- The inner `for number in range(lo, hi+1)` loop: stop at the first index
above `total`, skip already-selected indexes, else append the 1-based
segment. `count` is the number of remaining candidates (`hi + 1 - lo`). -/
def addRangeNumbers (segments : List String) (total : Nat) :
    Nat → Nat → List String → List Nat → (List String × List Nat)
  | 0, _, selected, seen => (selected, seen)
  | count + 1, n, selected, seen =>
    if n > total then (selected, seen)
    else if n ∈ seen then addRangeNumbers segments total count (n + 1) selected seen
    else addRangeNumbers segments total count (n + 1)
      (selected ++ [segments.getD (n - 1) ""]) (n :: seen)

/-- The token loop of `select_segments_by_range`. The Python `set` of
selected indexes is modelled as a membership-only list. -/
def selectLoop (segments : List String) (total : Nat) (singleTokenMode : Bool) :
    List (List Char) → List String → List Nat → Except String (List String)
  | [], selected, _ => .ok selected
  | part :: restParts, selected, seen =>
    let outcome : Except String (Option (Int × Int)) :=
      match (if singleTokenMode then matchSignedInt part else none) with
      | some value =>
        if value ≤ 0 then .ok none  -- `return list(segments)`
        else .ok (some (1, value))
      | none =>
        if allDigits part then
          let n : Int := (digitsToNat part : Int)
          if singleTokenMode then .ok (some (1, n)) else .ok (some (n, n))
        else
          match matchRangeToken part with
          | none => .error ("Invalid segment range token: " ++ String.mk part)
          | some (s, e) => .ok (some ((s : Int), (e : Int)))
    match outcome with
    | .error msg => .error msg
    | .ok none => .ok segments
    | .ok (some (start, stop)) =>
      if start ≤ 0 || stop ≤ 0 then
        .error "Segment range is 1-based; values must be >= 1"
      else
        let lo := (min start stop).toNat
        let hi := (max start stop).toNat
        if lo > total then selectLoop segments total singleTokenMode restParts selected seen
        else
          let (selected2, seen2) :=
            addRangeNumbers segments total (hi + 1 - lo) lo selected seen
          selectLoop segments total singleTokenMode restParts selected2 seen2

/-- `select_segments_by_range`: `.error` models the raised `ValueError`. -/
def select_segments_by_range (segments : List String) (range_spec : String) :
    Except String (List String) :=
  let raw := pyStripList range_spec.data
  if raw = [] then .ok segments
  else
    let parts := rangeSpecParts range_spec
    if parts = [] then .ok segments
    else
      let total := segments.length
      selectLoop segments total (parts.length = 1) parts [] []

/-- Claim-side reference for C10: per token the candidate index interval
(reversed ranges swapped), clipped to the segment count; indexes are kept
in first-encounter order. -/
def claimSelectedIndexes (tokens : List (Nat × Nat)) (total : Nat) : List Nat :=
  dedupFirst (tokens.flatMap (fun se =>
    (List.range' (min se.1 se.2) (max se.1 se.2 + 1 - min se.1 se.2)).filter (· ≤ total)))

/-- Parsing of one token in multi-token mode: a plain number or a range. -/
def parseMultiToken (part : List Char) : Option (Nat × Nat) :=
  if allDigits part then some (digitsToNat part, digitsToNat part)
  else matchRangeToken part

end Segmentation

/-! ## Characters, identity flags, and voice sanitization -/

/-- The fields of `models.CharacterSuggestion` used by the verified
services. -/
structure CharacterSuggestion where
  name : String
  role : String
  importance : Int
  is_main_character : Bool
  is_story_self : Bool
  personality : String
  voice_id : String
  reference_image_path : String
deriving DecidableEq

namespace LLMService

/-- Indexes of characters with `is_main_character` set
(`main_indexes` of `_normalize_identity_flags`). -/
def mainIndexes (cs : List CharacterSuggestion) : List Nat :=
  (cs.enum.filter (fun p => p.2.is_main_character)).map (·.1)

/-- Indexes of characters with `is_story_self` set. -/
def selfIndexes (cs : List CharacterSuggestion) : List Nat :=
  (cs.enum.filter (fun p => p.2.is_story_self)).map (·.1)

/-- `characters[index].is_main_character = False` for every listed index. -/
def clearMainAt (cs : List CharacterSuggestion) (idxs : List Nat) : List CharacterSuggestion :=
  idxs.foldl (fun acc i => List.modify (fun c => { c with is_main_character := false }) i acc) cs

/-- `characters[index].is_story_self = False` for every listed index. -/
def clearSelfAt (cs : List CharacterSuggestion) (idxs : List Nat) : List CharacterSuggestion :=
  idxs.foldl (fun acc i => List.modify (fun c => { c with is_story_self := false }) i acc) cs

/-- `characters[i].is_main_character = True`. -/
def setMainAt (cs : List CharacterSuggestion) (i : Nat) : List CharacterSuggestion :=
  List.modify (fun c => { c with is_main_character := true }) i cs

/-- `characters[i].is_story_self = True`. -/
def setSelfAt (cs : List CharacterSuggestion) (i : Nat) : List CharacterSuggestion :=
  List.modify (fun c => { c with is_story_self := true }) i cs

/-- Python `max(range(len(l)), key=f)`: the first index attaining the
maximum (later indexes win only on a strictly larger key). -/
def firstArgmaxAux (f : α → Int) : Nat → Int → Nat → List α → Nat
  | best, _, _, [] => best
  | best, bestVal, i, c :: rest =>
    if f c > bestVal then firstArgmaxAux f i (f c) (i + 1) rest
    else firstArgmaxAux f best bestVal (i + 1) rest

/-- Python `max(range(len(l)), key=f)` (0 on the empty list, unreachable). -/
def firstArgmax (f : α → Int) : List α → Nat
  | [] => 0
  | c :: rest => firstArgmaxAux f 0 (f c) 1 rest

/-- `int(characters[idx].importance or 0)`. -/
def importanceKey (c : CharacterSuggestion) : Int :=
  if c.importance = 0 then 0 else c.importance

/-- The string `"I'm"` (apostrophe kept out of the literal). -/
def iAmToken : String := "I" ++ String.singleton apostropheChar ++ "m"

/-- The first-person markers probed by `_normalize_identity_flags`. -/
def firstPersonTokens : List String :=
  ["我", "我们", "咱", "咱们", "I ", " I", iAmToken, "I,"]

/-- The `main_indexes` list after the duplicate-main pass (`[keep]` when
several were marked). -/
def nifMains1 (cs : List CharacterSuggestion) : List Nat :=
  if (mainIndexes cs).length > 1 then [(mainIndexes cs).headD 0] else mainIndexes cs

/-- The `self_indexes` list after the duplicate-self pass. -/
def nifSelfs1 (cs : List CharacterSuggestion) : List Nat :=
  if (selfIndexes cs).length > 1 then [(selfIndexes cs).headD 0] else selfIndexes cs

/-- The character list after the duplicate-main pass of
`_normalize_identity_flags`. -/
def nifCs1 (cs : List CharacterSuggestion) : List CharacterSuggestion :=
  if (mainIndexes cs).length > 1 then clearMainAt cs (mainIndexes cs).tail else cs

/-- The character list after the duplicate-self pass. -/
def nifCs2 (cs : List CharacterSuggestion) : List CharacterSuggestion :=
  if (selfIndexes cs).length > 1 then clearSelfAt (nifCs1 cs) (selfIndexes cs).tail
  else nifCs1 cs

/-- `best_index = max(range(len(characters)), key=...importance...)`. -/
def nifBest (cs : List CharacterSuggestion) : Nat :=
  firstArgmax importanceKey (nifCs2 cs)

/-- The character list after the promote-highest-importance pass. -/
def nifCs3 (cs : List CharacterSuggestion) : List CharacterSuggestion :=
  if nifMains1 cs = [] then setMainAt (nifCs2 cs) (nifBest cs) else nifCs2 cs

/-- The `main_indexes` list after the promote pass. -/
def nifMains2 (cs : List CharacterSuggestion) : List Nat :=
  if nifMains1 cs = [] then [nifBest cs] else nifMains1 cs

/-- `_normalize_identity_flags`: keep at most one main / story-self flag
(first marked wins), promote the highest-importance character when no main
is marked, and mark the main as story-self when the source text has
first-person markers and nobody is marked story-self. Python mutates the
list in place; the embedding returns the updated list, with the routine's
locals modelled by the `nif...` stage functions. -/
def normalize_identity_flags (cs : List CharacterSuggestion) (source_text : String) :
    List CharacterSuggestion :=
  if cs = [] then cs
  else if (firstPersonTokens.any (fun tok => pyContains source_text tok))
      && nifSelfs1 cs = [] then
    setSelfAt (nifCs3 cs) ((nifMains2 cs).headD 0)
  else nifCs3 cs

end LLMService

namespace VoiceCatalog

/-- The ids of `voice_catalog.VOICE_INFOS`, in catalog order. -/
def VOICE_IDS : List String :=
  ["zh-CN-YunxiNeural", "zh-CN-YunyangNeural", "zh-CN-YunjianNeural",
   "zh-CN-YunzeNeural", "zh-CN-XiaoxiaoNeural", "zh-CN-XiaoyiNeural",
   "zh-CN-XiaohanNeural", "zh-CN-XiaomengNeural", "zh-CN-XiaomoNeural",
   "zh-CN-XiaoruiNeural"]

/-- `_normalize_gender`. -/
def normalize_gender (gender_hint : String) : String :=
  let value := pyLower (pyStrip gender_hint)
  if value = "male" || value = "man" || value = "m" || value = "boy" then "male"
  else if value = "female" || value = "woman" || value = "f" || value = "girl" then "female"
  else "unknown"

/-- `any(word in content for word in words)`. -/
def containsAny (content : String) (words : List String) : Bool :=
  words.any (pyContains content)

/-- `recommend_voice(role_text, personality, gender_hint)`. -/
def recommend_voice (role_text personality gender_hint : String) : String :=
  let content := pyLower (role_text ++ " " ++ personality)
  let g := normalize_gender gender_hint
  if g = "female" then
    if containsAny content ["lively", "cute", "playful"] then "zh-CN-XiaoyiNeural"
    else if containsAny content ["cold", "calm", "professional"] then "zh-CN-XiaomoNeural"
    else "zh-CN-XiaoxiaoNeural"
  else if g = "male" then
    if containsAny content ["elder", "mentor", "authority", "villain"] then "zh-CN-YunjianNeural"
    else if containsAny content ["young", "passionate", "active", "teen"] then "zh-CN-YunyangNeural"
    else "zh-CN-YunxiNeural"
  else if containsAny content ["female", "girl", "princess", "heroine", "woman"] then
    if containsAny content ["lively", "cute", "playful"] then "zh-CN-XiaoyiNeural"
    else if containsAny content ["cold", "calm", "professional"] then "zh-CN-XiaomoNeural"
    else "zh-CN-XiaoxiaoNeural"
  else if containsAny content ["elder", "mentor", "authority", "villain"] then "zh-CN-YunjianNeural"
  else if containsAny content ["young", "passionate", "active", "teen"] then "zh-CN-YunyangNeural"
  else "zh-CN-YunxiNeural"

end VoiceCatalog

namespace VideoService

/-- `video_service._NARRATOR_VOICE_ID`. -/
def NARRATOR_VOICE_ID : String := "zh-CN-YunxiNeural"

open VoiceCatalog

/-- One iteration of the loop body of `_sanitize_character_voices`,
threading the `used` set and the voice writes (index, new id). A `none`
write means the branch that keeps the character's stored voice value. -/
def sanitizeVoiceStep (available : List String) (narrator : String)
    (state : List String × List (Nat × String)) (item : Nat × CharacterSuggestion) :
    List String × List (Nat × String) :=
  let used := state.1
  let asg := state.2
  let i := item.1
  let ch := item.2
  let current := pyStrip ch.voice_id
  if current ≠ "" && !used.contains current && available.contains current then
    (current :: used, asg)
  else
    let recommended := recommend_voice ch.role ch.personality ""
    if recommended ≠ "" && available.contains recommended && !used.contains recommended then
      (recommended :: used, (i, recommended) :: asg)
    else
      match available.find? (fun v => !used.contains v) with
      | some fallbackVoice => (fallbackVoice :: used, (i, fallbackVoice) :: asg)
      | none =>
        let finalVoice := if available.contains current then current else narrator
        (used, (i, finalVoice) :: asg)

/-- Application of the recorded in-place voice writes to one
`(index, character)` pair of the original order. -/
def voiceWriteOf (asg : List (Nat × String)) (p : Nat × CharacterSuggestion) :
    CharacterSuggestion :=
  match asg.find? (fun w => w.1 = p.1) with
  | some w => { p.2 with voice_id := w.2 }
  | none => p.2

/-- `_sanitize_character_voices`. Characters are visited in stable
descending-importance order (`sorted(..., reverse=True)` is stable); the
in-place voice mutations are modelled as an index-keyed write list applied
to the original order at the end. -/
def sanitize_character_voices (cs : List CharacterSuggestion) (narrator_voice : String) :
    List CharacterSuggestion :=
  if cs = [] then []
  else
    let available := VOICE_IDS
    let narrator :=
      if available.contains narrator_voice then narrator_voice
      else match available with
        | [] => NARRATOR_VOICE_ID
        | v :: _ => v
    let prioritized := pySortDesc (fun p => LLMService.importanceKey p.2) cs.enum
    let final := prioritized.foldl (sanitizeVoiceStep available narrator) ([narrator], [])
    cs.enum.map (fun p => voiceWriteOf final.2 p)

end VideoService

/-! ## `scene_cache_service`: descriptors, match profiles, verdicts -/

namespace SceneCache

/-- `_normalize_text`: collapse `\s+` to one space and strip. -/
def normalize_text (s : String) : String := pyStrip (String.mk (collapseWs s.data))

/-- `_normalize_path_text`: normalized text, backslashes to slashes,
lowercased. -/
def normalize_path_text (path : String) : String :=
  let value := normalize_text path
  if value = "" then ""
  else pyLower (String.mk (value.data.map (fun c => if c = '\\' then '/' else c)))

/-- `pathlib.Path(p).name` for forward-slash paths: the last non-empty
segment. -/
def pathName (cs : List Char) : List Char :=
  (((splitOnChar '/' cs).filter (· ≠ [])).getLast?).getD []

/-- Index of the last `.` in a name, if any. -/
def lastDotIndex (name : List Char) : Option Nat :=
  ((name.enum.filter (fun p => p.2 = '.')).map (·.1)).getLast?

/-- `pathlib.Path(p).stem`: the name without its suffix; a dot at the start
or the very end of the name does not begin a suffix. -/
def pathStem (cs : List Char) : List Char :=
  let name := pathName cs
  match lastDotIndex name with
  | some i => if 0 < i && i < name.length - 1 then name.take i else name
  | none => name

/-- `pathlib.Path(p).suffix`. -/
def pathSuffix (cs : List Char) : List Char :=
  let name := pathName cs
  match lastDotIndex name with
  | some i => if 0 < i && i < name.length - 1 then name.drop i else name.drop name.length
  | none => []

/-- `_ref_image_id_from_path`: the lowercased basename tail after the last
`_` (the whole stem when it has no underscore). -/
def ref_image_id_from_path (path : String) : String :=
  let normalized := normalize_path_text path
  if normalized = "" then ""
  else
    let stem := pathStem normalized.data
    if stem = [] then ""
    else if stem.contains '_' then
      pyLower (normalize_text (String.mk (((splitOnChar '_' stem).getLast?).getD stem)))
    else pyLower (normalize_text (String.mk stem))

/-- Shared shape of `_normalize_reference_image_ids` /
`_normalize_reference_image_paths`: normalize each value, drop empties and
duplicates, stop once `limit` values are collected. The Python `seen` set
holds exactly the output items, so the output doubles as the seen set. -/
def dedupCapAux (norm : String → String) (limit : Nat) : List String → List String → List String
  | [], out => out.reverse
  | raw :: rest, out =>
    let item := norm raw
    if item = "" || out.contains item then dedupCapAux norm limit rest out
    else if out.length + 1 ≥ limit then (item :: out).reverse
    else dedupCapAux norm limit rest (item :: out)

/-- `_normalize_reference_image_ids` (list input, default limit 8). -/
def normalize_reference_image_ids (values : List String) : List String :=
  dedupCapAux (fun r => pyLower (normalize_text r)) 8 values []

/-- `_normalize_reference_image_paths` (list input, default limit 8). -/
def normalize_reference_image_paths (values : List String) : List String :=
  dedupCapAux normalize_path_text 8 values []

/-- The scene-descriptor fields (`_normalize_scene_descriptor`'s keys). -/
structure SceneDescriptor where
  character_name : String
  character_role : String
  reference_image_path : String
  reference_image_paths : List String
  reference_image_ids : List String
  action_hint : String
  location_hint : String
  segment_text : String
  scene_elements : List String
  action_keywords : List String
  location_keywords : List String
  mood : String
  shot_type : String
deriving DecidableEq

/-- The all-empty descriptor. -/
def emptyDescriptor : SceneDescriptor :=
  ⟨"", "", "", [], [], "", "", "", [], [], [], "", ""⟩

/-- A match profile as `_build_match_profile` persists it (`schema_version`
is always 2 for rows this code writes, so it is left implicit). -/
structure MatchProfile where
  character_key : String
  character_name : String
  character_role : String
  reference_image_id : String
  reference_image_ids : List String
  reference_image_path : String
  reference_image_paths : List String
  action_hint : String
  location_hint : String
  segment_text : String
  scene_elements : List String
  action_keywords : List String
  location_keywords : List String
  mood : String
  shot_type : String
  action_tokens : List String
  location_tokens : List String
  scene_tokens : List String
  scene_summary : String
deriving DecidableEq

/-- Python slicing `s[:n]` (by code point). -/
def pyTake (s : String) (n : Nat) : String := String.mk (s.data.take n)

/-- `_profile_reference_image_paths` on a match profile. -/
def profile_reference_image_paths_p (p : MatchProfile) : List String :=
  let paths := normalize_reference_image_paths p.reference_image_paths
  if paths ≠ [] then paths
  else
    let single := normalize_path_text p.reference_image_path
    if single = "" then [] else [single]

/-- `_profile_reference_image_ids` on a match profile. -/
def profile_reference_image_ids_p (p : MatchProfile) : List String :=
  let ids := normalize_reference_image_ids p.reference_image_ids
  if ids ≠ [] then ids
  else
    let derived := (profile_reference_image_paths_p p).map ref_image_id_from_path
    (normalize_reference_image_ids derived).filter (· ≠ "")

/-- `_profile_reference_image_paths` on a descriptor. -/
def profile_reference_image_paths_d (d : SceneDescriptor) : List String :=
  let paths := normalize_reference_image_paths d.reference_image_paths
  if paths ≠ [] then paths
  else
    let single := normalize_path_text d.reference_image_path
    if single = "" then [] else [single]

/-- `_profile_reference_image_ids` on a descriptor. -/
def profile_reference_image_ids_d (d : SceneDescriptor) : List String :=
  let ids := normalize_reference_image_ids d.reference_image_ids
  if ids ≠ [] then ids
  else
    let derived := (profile_reference_image_paths_d d).map ref_image_id_from_path
    (normalize_reference_image_ids derived).filter (· ≠ "")

/-- `\w` plus the explicit CJK range of `_tokenize_ordered`
(`[^\w一-鿿]` is the complement). -/
def pyWordChar (c : Char) : Bool :=
  c.isAlphanum || c = '_' || (0x4e00 ≤ c.toNat && c.toNat ≤ 0x9fff)

/-- Maximal runs of word characters (what survives replacing
`[^\w一-鿿]+` by a space and then `str.split()`). Fuel-driven. -/
def wordGroupsAux : Nat → List Char → List String
  | 0, _ => []
  | _ + 1, [] => []
  | fuel + 1, c :: rest =>
    if pyWordChar c then
      String.mk (c :: rest.takeWhile pyWordChar) ::
        wordGroupsAux fuel (rest.dropWhile pyWordChar)
    else wordGroupsAux fuel rest

/-- Word runs of a character list. -/
def wordGroups (cs : List Char) : List String := wordGroupsAux cs.length cs

/-- The dedup-and-cap loop of `_tokenize_ordered` (skip tokens shorter than
two characters). -/
def tokenizeCapAux (limit : Nat) : List String → List String → List String
  | [], out => out.reverse
  | token :: rest, out =>
    if token.length < 2 || out.contains token then tokenizeCapAux limit rest out
    else if out.length + 1 ≥ limit then (token :: out).reverse
    else tokenizeCapAux limit rest (token :: out)

/-- `_tokenize_ordered`. -/
def tokenize_ordered (text : String) (limit : Nat) : List String :=
  tokenizeCapAux limit (wordGroups (pyLower (normalize_text text)).data) []

/-- `_common_token_count` over the token sets built at the call sites
(`len(set(a) & set(b))`). -/
def common_token_count (a b : List String) : Nat :=
  if a = [] || b = [] then 0
  else ((dedupFirst a).filter (fun t => b.contains t)).length

/-- The inner `_normalize_list` of `_normalize_scene_descriptor` (list
input): normalize and truncate each item to 80 chars, dedupe by lowercase
while keeping the original casing, cap at `limit`. -/
def normalizeKeywordListAux (limit : Nat) : List String → List String → List String → List String
  | [], _, out => out.reverse
  | raw :: rest, seen, out =>
    let item := pyTake (normalize_text raw) 80
    if item = "" then normalizeKeywordListAux limit rest seen out
    else
      let lowered := pyLower item
      if seen.contains lowered then normalizeKeywordListAux limit rest seen out
      else if out.length + 1 ≥ limit then (item :: out).reverse
      else normalizeKeywordListAux limit rest (lowered :: seen) (item :: out)

/-- `_normalize_list(values, limit)`. -/
def normalizeKeywordList (values : List String) (limit : Nat) : List String :=
  normalizeKeywordListAux limit values [] []

/-- `_normalize_scene_descriptor`. -/
def normalize_scene_descriptor (d : SceneDescriptor) : SceneDescriptor :=
  let character_name := normalize_text d.character_name
  let character_role := normalize_text d.character_role
  let reference_image_path := normalize_path_text d.reference_image_path
  let paths0 := normalize_reference_image_paths d.reference_image_paths
  let reference_image_paths :=
    if reference_image_path ≠ "" && !paths0.contains reference_image_path then
      reference_image_path :: paths0
    else paths0
  let ids0 := normalize_reference_image_ids d.reference_image_ids
  let reference_image_ids :=
    if ids0 = [] && reference_image_paths ≠ [] then
      normalize_reference_image_ids (reference_image_paths.map ref_image_id_from_path)
    else ids0
  let action_hint0 := pyTake (normalize_text d.action_hint) 220
  let location_hint := pyTake (normalize_text d.location_hint) 220
  let segment_text := pyTake (normalize_text d.segment_text) 700
  let action_hint := if action_hint0 = "" then pyTake segment_text 180 else action_hint0
  { character_name := character_name
    character_role := character_role
    reference_image_path := reference_image_path
    reference_image_paths := reference_image_paths
    reference_image_ids := reference_image_ids
    action_hint := action_hint
    location_hint := location_hint
    segment_text := segment_text
    scene_elements := normalizeKeywordList d.scene_elements 12
    action_keywords := normalizeKeywordList d.action_keywords 10
    location_keywords := normalizeKeywordList d.location_keywords 8
    mood := pyTake (normalize_text d.mood) 80
    shot_type := pyTake (normalize_text d.shot_type) 80 }

/-- `_character_key_from_descriptor`. `hash` stands for the opaque
`hashlib.md5(seed).hexdigest()[:16]` collaborator. -/
def character_key_from_descriptor (hash : String → String) (d : SceneDescriptor) : String :=
  let ref_ids := profile_reference_image_ids_d d
  let reference_image_id := ref_ids.headD ""
  let ref_paths := profile_reference_image_paths_d d
  let reference_image_path :=
    match ref_paths with
    | p :: _ => p
    | [] => normalize_path_text d.reference_image_path
  let seed := if reference_image_id ≠ "" then reference_image_id else reference_image_path
  if seed = "" then "" else hash seed

/-- `" | ".join(pieces)` / `" ".join(words)`. -/
def strJoinWith (sep : String) : List String → String
  | [] => ""
  | [p] => p
  | p :: rest => p ++ sep ++ strJoinWith sep rest

/-- `_build_match_profile`. -/
def build_match_profile (hash : String → String) (d : SceneDescriptor) : MatchProfile :=
  let n := normalize_scene_descriptor d
  let joined := strJoinWith " | " ([n.location_hint, n.action_hint].filter (· ≠ ""))
  let scene_summary := if joined = "" then pyTake n.segment_text 220 else joined
  { character_key := character_key_from_descriptor hash n
    character_name := n.character_name
    character_role := n.character_role
    reference_image_id := n.reference_image_ids.headD ""
    reference_image_ids := n.reference_image_ids
    reference_image_path := n.reference_image_path
    reference_image_paths := n.reference_image_paths
    action_hint := n.action_hint
    location_hint := n.location_hint
    segment_text := n.segment_text
    scene_elements := n.scene_elements
    action_keywords := n.action_keywords
    location_keywords := n.location_keywords
    mood := n.mood
    shot_type := n.shot_type
    action_tokens := tokenize_ordered
      (n.action_hint ++ " " ++ strJoinWith " " n.action_keywords ++ " " ++ n.segment_text) 24
    location_tokens := tokenize_ordered
      (n.location_hint ++ " " ++ strJoinWith " " n.location_keywords) 16
    scene_tokens := tokenize_ordered
      (n.segment_text ++ " " ++ strJoinWith " " n.scene_elements ++ " "
        ++ n.mood ++ " " ++ n.shot_type) 40
    scene_summary := pyTake scene_summary 220 }

/-- `_character_match`. -/
def character_match (target candidate : MatchProfile) : Bool :=
  let target_ref_ids := profile_reference_image_ids_p target
  let candidate_ref_ids := profile_reference_image_ids_p candidate
  if target_ref_ids ≠ [] && candidate_ref_ids ≠ []
      && target_ref_ids.any (fun x => candidate_ref_ids.contains x) then true
  else
    let target_refs := profile_reference_image_paths_p target
    let candidate_refs := profile_reference_image_paths_p candidate
    if target_refs ≠ [] && candidate_refs ≠ []
        && target_refs.any (fun x => candidate_refs.contains x) then true
    else
      let target_key := normalize_text target.character_key
      let candidate_key := normalize_text candidate.character_key
      target_key ≠ "" && candidate_key ≠ "" && target_key = candidate_key

/-- The stats dictionary a `_text_match_verdict` return carries; absent keys
are modelled by the values the downstream `.get(key, default)` reads would
produce. -/
structure MatchDetails where
  reject : Option String
  action_common : Nat
  location_common : Nat
  scene_common : Nat
  scene_element_common : Nat
  exact_action : Bool
  exact_location : Bool
  rank_key : Nat
deriving DecidableEq

/-- `_text_match_verdict`. -/
def text_match_verdict (target candidate : MatchProfile) : Bool × MatchDetails :=
  if !character_match target candidate then
    (false, ⟨some "character_mismatch", 0, 0, 0, 0, false, false, 0⟩)
  else
    let action_common := common_token_count target.action_tokens candidate.action_tokens
    let location_common := common_token_count target.location_tokens candidate.location_tokens
    let scene_common := common_token_count target.scene_tokens candidate.scene_tokens
    let target_scene_elements := (target.scene_elements.filter (· ≠ "")).map pyLower
    let candidate_scene_elements := (candidate.scene_elements.filter (· ≠ "")).map pyLower
    let scene_element_common := common_token_count target_scene_elements candidate_scene_elements
    let target_action := normalize_text target.action_hint
    let candidate_action := normalize_text candidate.action_hint
    let exact_action := target_action ≠ "" && candidate_action ≠ ""
      && target_action = candidate_action
    let action_contains := target_action ≠ "" && candidate_action ≠ ""
      && ((target_action.length ≥ 8 && pyContains candidate_action target_action)
        || (candidate_action.length ≥ 8 && pyContains target_action candidate_action))
    let action_match := exact_action || action_contains || action_common ≥ 2
    let target_location := normalize_text target.location_hint
    let candidate_location := normalize_text candidate.location_hint
    let exact_location := target_location ≠ "" && candidate_location ≠ ""
      && target_location = candidate_location
    let location_contains := target_location ≠ "" && candidate_location ≠ ""
      && ((target_location.length ≥ 6 && pyContains candidate_location target_location)
        || (candidate_location.length ≥ 6 && pyContains target_location candidate_location))
    let require_location_match := target_location ≠ "" && candidate_location ≠ ""
    let location_match := !require_location_match || exact_location || location_contains
      || location_common ≥ 1
    let scene_match := scene_common ≥ 2 || scene_element_common ≥ 1 || action_match
    if !action_match then
      (false, ⟨some "action_mismatch", action_common, location_common, scene_common, 0,
        exact_action, false, 0⟩)
    else if require_location_match && !location_match then
      (false, ⟨some "location_mismatch", action_common, location_common, scene_common, 0,
        false, exact_location, 0⟩)
    else if !scene_match then
      (false, ⟨some "scene_mismatch", action_common, location_common, scene_common,
        scene_element_common, false, false, 0⟩)
    else
      (true, ⟨none, action_common, location_common, scene_common, scene_element_common,
        exact_action, exact_location,
        action_common * 100 + location_common * 10 + scene_common⟩)

/-! ### Cache rows, migration, and the two lookups

SQLite rows are modelled as the decoded dictionaries `_db_row_to_entry`
yields; the reference-id/path pre-filter queries only shrink the row list,
so the lookup functions receive the resulting list directly. Every stored
`match_profile` this code writes has `schema_version = 2`. -/

/-- A decoded cache row. `match_profile = none` models a row whose profile
JSON did not decode to a dict. `freshId` is the `uuid4().hex` the migration
would draw if the row id were empty; `is_scene_only` is the truthiness of
an `is_scene_only` marker sitting in the row's stored descriptor/profile
JSON (the selector prompt asks the LLM to emit one). The marker does not
survive migration: `_normalize_scene_descriptor` and `_build_match_profile`
rebuild both dicts with fixed key sets that do not include it. -/
structure RawEntry where
  id : String
  image_path : String
  prompt : String
  descriptor : SceneDescriptor
  match_profile : Option MatchProfile
  is_scene_only : Bool
  freshId : String
deriving DecidableEq

/-- The entry shape `_migrate_entry_schema` returns: the keys of its return
dict are exactly `id`, `created_at`, `image_path`, `prompt`, `descriptor`,
`match_profile`, with `descriptor` from `_normalize_scene_descriptor` and
`match_profile` from `_build_match_profile` - neither carries an
`is_scene_only` key. -/
structure MigratedEntry where
  id : String
  image_path : String
  prompt : String
  descriptor : SceneDescriptor
  match_profile : MatchProfile
deriving DecidableEq

/-- Projection of a stored profile onto the descriptor keys. A schema-2
profile carries every descriptor key, so `{**descriptor, **raw_profile}`
projects to exactly these fields of the profile. -/
def descriptorOfProfile (p : MatchProfile) : SceneDescriptor :=
  { character_name := p.character_name
    character_role := p.character_role
    reference_image_path := p.reference_image_path
    reference_image_paths := p.reference_image_paths
    reference_image_ids := p.reference_image_ids
    action_hint := p.action_hint
    location_hint := p.location_hint
    segment_text := p.segment_text
    scene_elements := p.scene_elements
    action_keywords := p.action_keywords
    location_keywords := p.location_keywords
    mood := p.mood
    shot_type := p.shot_type }

/-- `not any(descriptor.values())`. -/
def descriptorAllFalsy (d : SceneDescriptor) : Bool :=
  d.character_name = "" && d.character_role = "" && d.reference_image_path = ""
    && d.reference_image_paths.isEmpty && d.reference_image_ids.isEmpty
    && d.action_hint = "" && d.location_hint = "" && d.segment_text = ""
    && d.scene_elements.isEmpty && d.action_keywords.isEmpty
    && d.location_keywords.isEmpty && d.mood = "" && d.shot_type = ""

/-- The prompt-derived replacement descriptor of `_migrate_entry_schema`. -/
def promptDescriptor (prompt : String) : SceneDescriptor :=
  { emptyDescriptor with
      action_hint := pyTake prompt 220
      segment_text := pyTake prompt 700 }

/-- `_migrate_entry_schema`. -/
def migrate_entry_schema (hash : String → String) (e : RawEntry) : Option MigratedEntry :=
  let image_path := normalize_text e.image_path
  if image_path = "" then none
  else
    let d0 := normalize_scene_descriptor e.descriptor
    let d :=
      if descriptorAllFalsy d0 then
        normalize_scene_descriptor (promptDescriptor (normalize_text e.prompt))
      else d0
    let merged :=
      match e.match_profile with
      | some rp => descriptorOfProfile rp
      | none => d
    let p0 := build_match_profile hash merged
    let legacySources := [d.reference_image_path,
      (match e.match_profile with | some rp => rp.reference_image_path | none => ""),
      p0.reference_image_path]
    let mergedPaths := legacySources.foldl (fun acc legacy =>
        let normalized := normalize_path_text legacy
        if normalized ≠ "" && !acc.contains normalized then acc ++ [normalized] else acc)
      p0.reference_image_paths
    let p1 := { p0 with reference_image_paths := mergedPaths }
    let p2ids := profile_reference_image_ids_p p1
    let p2 := { p1 with reference_image_ids := p2ids, reference_image_id := p2ids.headD "" }
    let d2 := { d with reference_image_ids := profile_reference_image_ids_d d }
    some { id := if e.id = "" then e.freshId else e.id
           image_path := image_path
           prompt := p2.scene_summary
           descriptor := d2
           match_profile := p2 }

/-- `_entry_match_profile` on a migrated entry (its profile is schema 2,
so the stored profile is reused with its reference ids recomputed). -/
def entry_match_profile (m : MigratedEntry) : MatchProfile :=
  let ids := profile_reference_image_ids_p m.match_profile
  { m.match_profile with reference_image_ids := ids, reference_image_id := ids.headD "" }

/-- The parsed JSON object of the scene-reuse selector response.
`selected_id = ""` models a falsy `selected_id` (absent / null / empty). -/
structure ParsedSelection where
  selected_id : String
  should_reuse : Bool
  character_match : Bool
  action_match : Bool
  location_match : Bool
  scene_match : Bool
  reason : String
deriving DecidableEq

/-- `str(parsed.get("reason", ""))[:240]`. -/
def parsedReason (p : ParsedSelection) : String := pyTake p.reason 240

/-- `_llm_match_candidate` after the HTTP round-trip: `parsed = none` covers
a missing API key, a failed request, and an unparseable response (each of
which returns no pick). Candidates are the `(id, match_profile)` pairs the
verdict logic reads. Returns `(selected id or none, reason)`. -/
def llm_match_candidate (parsed : Option ParsedSelection) (target : MatchProfile)
    (candidates : List (String × MatchProfile)) (strict : Bool) :
    Option String × String :=
  if candidates = [] then (none, "llm disabled or no candidates")
  else
    match parsed with
    | none => (none, "llm request failed")
    | some p =>
      let reason := parsedReason p
      if !p.should_reuse || p.selected_id = "" then
        (none, if reason = "" then "llm says no match" else reason)
      else
        -- `next(..., {})`: a pick whose id is absent acts as an empty profile
        let selected_profile := (candidates.find? (fun c => c.1 = p.selected_id)).map (·.2)
        let target_ref_ids := profile_reference_image_ids_p target
        let selected_ref_ids :=
          match selected_profile with
          | some sp => profile_reference_image_ids_p sp
          | none => []
        if target_ref_ids ≠ [] && selected_ref_ids ≠ []
            && !target_ref_ids.any (fun x => selected_ref_ids.contains x) then
          (none, if reason = "" then "llm selected candidate with different reference image id" else reason)
        else
          let target_ref_paths := profile_reference_image_paths_p target
          let selected_ref_paths :=
            match selected_profile with
            | some sp => profile_reference_image_paths_p sp
            | none => []
          if target_ref_paths ≠ [] && selected_ref_paths ≠ []
              && !target_ref_paths.any (fun x => selected_ref_paths.contains x) then
            (none, if reason = "" then "llm selected candidate with different reference image" else reason)
          else
            let target_has_location := normalize_text target.location_hint ≠ ""
            -- the location map is a dict comprehension: a later duplicate id wins
            let selected_has_location :=
              match (candidates.reverse.find? (fun c => c.1 = p.selected_id)).map (·.2) with
              | some sp => normalize_text sp.location_hint ≠ ""
              | none => false
            let require_location_match := target_has_location && selected_has_location
            if strict then
              if !p.character_match || !p.action_match || !p.scene_match
                  || (require_location_match && !p.location_match) then
                (none, if reason = "" then "llm strict checks failed" else reason)
              else (some p.selected_id, if reason = "" then "llm matched" else reason)
            else
              if !p.character_match then
                (none, if reason = "" then "llm fallback strict checks failed" else reason)
              else if !(p.action_match || p.scene_match) then
                (none, if reason = "" then "llm fallback semantic checks failed" else reason)
              else if require_location_match && !p.location_match && !p.scene_match then
                (none, if reason = "" then "llm fallback location checks failed" else reason)
              else (some p.selected_id, if reason = "" then "llm matched" else reason)

/-- An entry of the strict lookup's `viable` list. -/
structure ViableEntry where
  id : String
  image_path : String
  profile : MatchProfile
  details : MatchDetails
deriving DecidableEq

/-- A lookup result (the returned dictionary; the constant `confidence`
float is omitted). `entry_id` keeps the entry id. -/
structure LookupResult where
  image_path : String
  match_type : String
  reason : String
  entry_id : String
deriving DecidableEq

/-- `{str(item) for item in (disallow_entry_ids or set()) if str(item)}`. -/
def blockedIds (disallow : List String) : List String :=
  disallow.filter (fun s => s ≠ "")

/-- The `viable` construction of `find_reusable_scene_image`: drop blocked
ids, migrate, drop dead image files, keep rows passing the text verdict. -/
def viableEntries (hash : String → String) (fileExists : String → Bool)
    (target_profile : MatchProfile) (entries : List RawEntry)
    (blocked : List String) : List ViableEntry :=
  entries.filterMap (fun e =>
    if e.id ≠ "" && blocked.contains e.id then none
    else
      match migrate_entry_schema hash e with
      | none => none
      | some m =>
        if !fileExists m.image_path then none
        else
          let candidate_profile := entry_match_profile m
          match text_match_verdict target_profile candidate_profile with
          | (false, _) => none
          | (true, details) => some ⟨m.id, m.image_path, candidate_profile, details⟩)

/-- The byte-equal action/location comparison shared by the `text-exact`
branches of the strict lookup. -/
def sameActionLocation (target_profile : MatchProfile) (v : ViableEntry) : Bool :=
  let target_action := normalize_text target_profile.action_hint
  let item_action := normalize_text v.profile.action_hint
  let target_location := normalize_text target_profile.location_hint
  let item_location := normalize_text v.profile.location_hint
  (target_action ≠ "" && target_action = item_action)
    && ((target_location = "" && item_location = "")
      || (target_location ≠ "" && item_location ≠ "" && target_location = item_location))

/-- The ranked short list of the strict lookup (`ranked[:top_limit]`). -/
def findTop (hash : String → String) (fileExists : String → Bool)
    (target_profile : MatchProfile) (entries : List RawEntry)
    (blocked : List String) : List ViableEntry :=
  let ranked := pySortDesc (fun v => (v.details.rank_key : Int))
    (viableEntries hash fileExists target_profile entries blocked)
  let top_limit :=
    if profile_reference_image_ids_p target_profile ≠ []
        || profile_reference_image_paths_p target_profile ≠ [] then
      min 200 (max 5 ranked.length)
    else 5
  ranked.take top_limit

/-- `find_reusable_scene_image` (strict lookup). `entries` is the row list
the DB pre-filter produced; `parsed` is the selector-response oracle. -/
def find_reusable_scene_image (hash : String → String) (fileExists : String → Bool)
    (parsed : Option ParsedSelection) (scene_descriptor : SceneDescriptor)
    (entries : List RawEntry) (disallow : List String) : Option LookupResult :=
  let target_descriptor := normalize_scene_descriptor scene_descriptor
  let target_profile := build_match_profile hash target_descriptor
  let blocked := blockedIds disallow
  let viable := viableEntries hash fileExists target_profile entries blocked
  if viable = [] then none
  else
    let top := findTop hash fileExists target_profile entries blocked
    let exact_candidates := top.filter (sameActionLocation target_profile)
    match exact_candidates with
    | best :: restExact =>
      let best_exact := ((pySortDesc (fun v => (v.details.rank_key : Int))
        (best :: restExact)).headD best)
      some ⟨best_exact.image_path, "text-exact", "exact action/location match", best_exact.id⟩
    | [] =>
      match top with
      | [] => none  -- unreachable: `viable` is non-empty
      | first :: restTop =>
        if restTop = [] && sameActionLocation target_profile first then
          some ⟨first.image_path, "text-exact", "single candidate exact action/location", first.id⟩
        else
          let best_precheck := first.details
          if !best_precheck.exact_action && best_precheck.action_common < 3 then none
          else if best_precheck.scene_common < 2 && best_precheck.scene_element_common < 1 then none
          else
            let llmOut := llm_match_candidate parsed target_profile
              (top.map (fun v => (v.id, v.profile))) true
            let llmPick : Option LookupResult :=
              match llmOut.1 with
              | some selected_id =>
                (top.find? (fun v => v.id = selected_id)).map
                  (fun s => ⟨s.image_path, "llm", llmOut.2, s.id⟩)
              | none => none
            match llmPick with
            | some r => some r
            | none =>
              let hardReject :=
                match first.details.reject with
                | some r => r = "character_mismatch" || r = "action_mismatch"
                    || r = "location_mismatch"
                | none => false
              if hardReject then none
              else if sameActionLocation target_profile first then
                some ⟨first.image_path, "text-exact", "exact action/location text match", first.id⟩
              else none

/-- A candidate of the lenient lookup with its weighted rank. -/
structure ForceCandidate where
  id : String
  image_path : String
  profile : MatchProfile
  llm_rank : Nat
deriving DecidableEq

/-- The weighted candidate list of `force_llm_select_scene_image` (same
pre-filters as the strict lookup, plus the `+1000` character bonus). -/
def forceCandidates (hash : String → String) (fileExists : String → Bool)
    (target_profile : MatchProfile) (entries : List RawEntry)
    (blocked : List String) : List ForceCandidate :=
  entries.filterMap (fun e =>
    if e.id ≠ "" && blocked.contains e.id then none
    else
      match migrate_entry_schema hash e with
      | none => none
      | some m =>
        if !fileExists m.image_path then none
        else
          let candidate_profile := entry_match_profile m
          let action_common := common_token_count target_profile.action_tokens
            candidate_profile.action_tokens
          let location_common := common_token_count target_profile.location_tokens
            candidate_profile.location_tokens
          let scene_common := common_token_count target_profile.scene_tokens
            candidate_profile.scene_tokens
          let character_bonus := if character_match target_profile candidate_profile then 1000 else 0
          some (ForceCandidate.mk m.id m.image_path candidate_profile
            (character_bonus + action_common * 100 + location_common * 20 + scene_common)))

/-- The ranked short list of the lenient lookup (`top =
sorted(candidates, ...)[:top_limit]`). -/
def forceTop (hash : String → String) (fileExists : String → Bool)
    (target_profile : MatchProfile) (entries : List RawEntry)
    (blocked : List String) : List ForceCandidate :=
  let candidates := forceCandidates hash fileExists target_profile entries blocked
  let top_limit :=
    if profile_reference_image_ids_p target_profile ≠ []
        || profile_reference_image_paths_p target_profile ≠ [] then
      min 200 (max 20 candidates.length)
    else 20
  (pySortDesc (fun c => (c.llm_rank : Int)) candidates).take top_limit

/-- `force_llm_select_scene_image` (lenient lookup). -/
def force_llm_select_scene_image (hash : String → String) (fileExists : String → Bool)
    (parsed : Option ParsedSelection) (scene_descriptor : SceneDescriptor)
    (entries : List RawEntry) (disallow : List String) : Option LookupResult :=
  let target_descriptor := normalize_scene_descriptor scene_descriptor
  let target_profile := build_match_profile hash target_descriptor
  let blocked := blockedIds disallow
  let candidates := forceCandidates hash fileExists target_profile entries blocked
  if candidates = [] then none
  else
    let top := forceTop hash fileExists target_profile entries blocked
    let llmOut := llm_match_candidate parsed target_profile
      (top.map (fun c => (c.id, c.profile))) false
    match llmOut.1 with
    | none => none
    | some selected_id =>
      (top.find? (fun c => c.id = selected_id)).map
        (fun s => ⟨s.image_path, "llm-fallback", llmOut.2, s.id⟩)

/-- `list_scene_cache_entries`. -/
def list_scene_cache_entries (hash : String → String) (fileExists : String → Bool)
    (entries : List RawEntry) (disallow : List String) : List MigratedEntry :=
  let blocked := blockedIds disallow
  entries.filterMap (fun e =>
    if e.id ≠ "" && blocked.contains e.id then none
    else
      match migrate_entry_schema hash e with
      | none => none
      | some m => if !fileExists m.image_path then none else some m)

/-- The all-empty match profile. -/
def emptyProfile : MatchProfile :=
  ⟨"", "", "", "", [], "", [], "", "", "", [], [], [], "", "", [], [], [], ""⟩

/-- Placeholder for the unreachable default of a `random.choice` on an
empty list. -/
def dummyMigratedEntry : MigratedEntry := ⟨"", "", "", emptyDescriptor, emptyProfile⟩

end SceneCache

/-! ### Concrete fixture rows used by the closed witnesses -/

namespace Fixtures

open SceneCache

/-- A concrete stand-in for the opaque digest collaborator; injective on
the fixture seeds. -/
def wHash : String → String := fun s => "k" ++ s

/-- A lookup-target descriptor with reference image id `a1`. -/
def wDescTarget : SceneDescriptor :=
  { emptyDescriptor with
      character_name := "Hero"
      reference_image_paths := ["refs/hero_a1.png"]
      action_hint := "running in rain"
      segment_text := "hero running in rain" }

/-- A cache row for the same character and scene (id `e1`). -/
def wEntryGood : RawEntry :=
  ⟨"e1", "cache/img1.png", "p", wDescTarget,
    some (build_match_profile wHash wDescTarget), false, "f1"⟩

/-- A descriptor of a different character with reference image id `b2`. -/
def wDescOther : SceneDescriptor :=
  { emptyDescriptor with
      character_name := "Villain"
      reference_image_paths := ["refs/villain_b2.png"]
      action_hint := "running in rain"
      segment_text := "villain running in rain" }

/-- A cache row for the other character (id `e2`). -/
def wEntryOther : RawEntry :=
  ⟨"e2", "cache/img2.png", "p", wDescOther,
    some (build_match_profile wHash wDescOther), false, "f2"⟩

/-- The `(id, match_profile)` pair the lenient selector's `next(...)` read
resolves for a pick of `e2` over the mixed pool `[e1, e2]`. -/
def wPickPair : String × MatchProfile :=
  (((forceTop wHash (fun _ => true)
      (build_match_profile wHash (normalize_scene_descriptor wDescTarget))
      [wEntryGood, wEntryOther] (blockedIds [])).map
      (fun c => (c.id, c.profile))).find? (fun c => c.1 = "e2")).getD
    ("", emptyProfile)

end Fixtures

/-! ## `image_service._build_messages` -/

namespace ImageService

/-- One part of a chat-message content array. -/
inductive MessagePart where
  | textPart (text : String)
  | imagePart (dataUrl : String)
deriving DecidableEq

/-- A chat-message content: a plain string or a parts array. -/
inductive MessageContent where
  | plain (text : String)
  | parts (items : List MessagePart)
deriving DecidableEq

/-- A chat message of the image-provider request. -/
structure Message where
  role : String
  content : MessageContent
deriving DecidableEq

/-- `_build_messages(prompt, reference_image_path)`: attach the reference
image as a base64 `image_url` part when the file exists with a supported
suffix, else send the bare prompt. `reference_image_path = ""` models
`None`; `encoded` is the base64 payload the file read would produce. -/
def build_messages (fileExists : String → Bool) (encoded : String)
    (prompt : String) (reference_image_path : String) : List Message :=
  if reference_image_path ≠ "" then
    let suffix := pyLower (String.mk (SceneCache.pathSuffix reference_image_path.data))
    if fileExists reference_image_path
        && (suffix = ".png" || suffix = ".jpg" || suffix = ".jpeg" || suffix = ".webp") then
      let mime := if suffix = ".png" then "image/png" else "image/jpeg"
      [⟨"user", .parts [.textPart prompt,
        .imagePart ("data:" ++ mime ++ ";base64," ++ encoded)]⟩]
    else [⟨"user", .plain prompt⟩]
  else [⟨"user", .plain prompt⟩]

/-- Number of `image_url` parts in a message list. -/
def countImageParts (messages : List Message) : Nat :=
  (messages.map (fun m =>
    match m.content with
    | .plain _ => 0
    | .parts items => (items.filter (fun p =>
        match p with
        | .imagePart _ => true
        | .textPart _ => false)).length)).sum

end ImageService

/-! ## `video_service`: fallback pickers, image resolver, compose entry -/

namespace VideoService

open SceneCache

/-- `_normalize_character_name_key`: remove all whitespace, lowercase. -/
def normalizeCharacterNameKey (value : String) : String :=
  pyLower (String.mk (value.data.filter (fun c => !pyIsSpace c)))

/-- `_normalize_path_key`: backslashes to slashes, strip, lowercase. -/
def normalizePathKey (value : String) : String :=
  pyLower (pyStrip (String.mk (value.data.map (fun c => if c = '\\' then '/' else c))))

/-- `_extract_entry_character_profile`: the normalized character name and
the set of normalized reference-path keys of a cache entry. -/
def extract_entry_character_profile (m : MigratedEntry) : String × List String :=
  let name := normalizeCharacterNameKey
    (if m.match_profile.character_name ≠ "" then m.match_profile.character_name
     else m.descriptor.character_name)
  let pathsOf := fun (paths : List String) (single : String) =>
    (paths.map normalizePathKey).filter (· ≠ "")
      ++ (let s := normalizePathKey single; if s ≠ "" then [s] else [])
  (name, pathsOf m.match_profile.reference_image_paths m.match_profile.reference_image_path
    ++ pathsOf m.descriptor.reference_image_paths m.descriptor.reference_image_path)

/-- `_pick_random_current_character_cache_entry`; `choice` is the
`random.choice` oracle (an index into the matched list). -/
def pick_random_current_character_cache_entry (hash : String → String)
    (fileExists : String → Bool) (entries : List RawEntry) (disallow : List String)
    (characterName characterRefPath : String) (choice : Nat) : Option MigratedEntry :=
  let candidates := list_scene_cache_entries hash fileExists entries disallow
  if candidates = [] then none
  else
    let target_name := normalizeCharacterNameKey characterName
    let target_ref_path := normalizePathKey characterRefPath
    let matched := candidates.filter (fun m =>
      fileExists m.image_path &&
        (let prof := extract_entry_character_profile m
         (target_name ≠ "" && prof.1 = target_name)
           || (target_ref_path ≠ "" && prof.2.contains target_ref_path)))
    if matched = [] then none
    else some (matched.getD (choice % matched.length) dummyMigratedEntry)

/-- `_entry_is_scene_only` on the entries `list_scene_cache_entries`
returns: it reads `match_profile.get("is_scene_only",
descriptor.get("is_scene_only", False))`, but those dicts come out of
`_migrate_entry_schema`, whose `_normalize_scene_descriptor` /
`_build_match_profile` rebuilds drop the key - both `get`s fall through to
the `False` default on every migrated row. -/
def entry_is_scene_only (_ : MigratedEntry) : Bool := false

/-- `_pick_random_scene_only_cache_entry`. -/
def pick_random_scene_only_cache_entry (hash : String → String)
    (fileExists : String → Bool) (entries : List RawEntry) (disallow : List String)
    (choice : Nat) : Option MigratedEntry :=
  let candidates := list_scene_cache_entries hash fileExists entries disallow
  if candidates = [] then none
  else
    let matched := candidates.filter (fun m =>
      fileExists m.image_path && entry_is_scene_only m)
    if matched = [] then none
    else some (matched.getD (choice % matched.length) dummyMigratedEntry)

/-- The triple `_resolve_segment_image` returns: produced image path,
source label, cache entry id (`""` models `None`). -/
structure ResolveOutcome where
  out_path : String
  source : String
  entry_id : String
deriving DecidableEq

/-- `str(x or "") or None` on an optional entry id, with `None` as `""`. -/
def optId (r : Option LookupResult) : String :=
  match r with
  | some p => p.entry_id
  | none => ""

/-- `_resolve_segment_image`. The scene descriptor is the one
`build_scene_descriptor` produced for the segment; `generation` is the
outcome of `use_reference_or_generate` (`.error` = the
`ImageGenerationError` the except-clause anticipates); `saved_entry_id` is
the id of the cache row persisted after a successful generation (`""` when
saving fails);  `parsedStrict` / `parsedLenient` are the selector-response
oracles of the two lookups and `choice*` the `random.choice` oracles. -/
def resolve_segment_image (hash : String → String) (fileExists : String → Bool)
    (parsedStrict parsedLenient : Option ParsedSelection)
    (enable_scene_image_reuse : Bool) (descriptor : SceneDescriptor)
    (entries : List RawEntry) (recent_reuse_entry_ids : List String)
    (generation : Except String String)
    (characterName characterRefPath : String) (refExists : Bool)
    (choiceChar choiceSceneOnly choiceRandom : Nat)
    (image_path : String) (saved_entry_id : String) : Except String ResolveOutcome :=
  let strictHit : Option LookupResult :=
    if enable_scene_image_reuse then
      find_reusable_scene_image hash fileExists parsedStrict descriptor entries
        recent_reuse_entry_ids
    else none
  let strictOk : Bool := match strictHit with
    | some matched => matched.image_path ≠ ""
    | none => false
  if strictOk then .ok ⟨image_path, "cache", optId strictHit⟩
  else
    match generation with
    | .ok generated =>
      .ok ⟨generated, "generated", if enable_scene_image_reuse then saved_entry_id else ""⟩
    | .error _ =>
      let forced := force_llm_select_scene_image hash fileExists parsedLenient descriptor
        entries recent_reuse_entry_ids
      let forcedOk : Bool := match forced with
        | some pick => pick.image_path ≠ ""
        | none => false
      if forcedOk then .ok ⟨image_path, "fallback-llm", optId forced⟩
      else
        let character_random_entry := pick_random_current_character_cache_entry hash
          fileExists entries recent_reuse_entry_ids characterName characterRefPath choiceChar
        let charOk : Bool := match character_random_entry with
          | some m => m.image_path ≠ ""
          | none => false
        if charOk then
          .ok ⟨image_path, "fallback-character-cache",
            (match character_random_entry with | some m => m.id | none => "")⟩
        else
          let suffix := pyLower (String.mk (pathSuffix characterRefPath.data))
          if characterRefPath ≠ "" && refExists
              && (suffix = ".png" || suffix = ".jpg" || suffix = ".jpeg" || suffix = ".webp") then
            .ok ⟨image_path, "fallback-reference", ""⟩
          else
            let scene_only_entry := pick_random_scene_only_cache_entry hash fileExists
              entries recent_reuse_entry_ids choiceSceneOnly
            let sceneOnlyOk : Bool := match scene_only_entry with
              | some m => m.image_path ≠ ""
              | none => false
            if sceneOnlyOk then
              .ok ⟨image_path, "fallback-scene-only-cache",
                (match scene_only_entry with | some m => m.id | none => "")⟩
            else
              let candidates := list_scene_cache_entries hash fileExists entries
                recent_reuse_entry_ids
              if candidates = [] then
                .error "image generation failed and no fallback scene/reference image available"
              else
                let selected := candidates.getD (choiceRandom % candidates.length)
                  dummyMigratedEntry
                .ok ⟨image_path, "fallback-random-cache", selected.id⟩

/-- What the worker does on entering the compose stage
(`run_video_job`, after the last segment). -/
inductive ComposeStep where
  | cancelled
  | completedExisting (output_path : String)
  | runCompose (output_path : String)
deriving DecidableEq

/-- The compose-stage entry of `run_video_job`: the cancel check, then the
existing-output check (`exists`, `is_file`, `stat().st_size ≥ 16384` with a
failed `stat` counting as not ok), then composition. -/
def composeStageEntry (job_cancelled : Bool) (final_exists final_is_file : Bool)
    (stat_size : Option Int) (output_path : String) : ComposeStep :=
  if job_cancelled then .cancelled
  else
    let finalExists := final_exists && final_is_file
    let finalSizeOk :=
      if finalExists then
        match stat_size with
        | some n => decide (n ≥ 16384)
        | none => false
      else false
    if finalExists && finalSizeOk then .completedExisting output_path
    else .runCompose output_path

end VideoService

namespace Segmentation

/-- The seen-set after processing a list with first-occurrence dedup. -/
def seenAfter [DecidableEq α] : List α → List α → List α
  | [], seen => seen
  | x :: rest, seen =>
    if x ∈ seen then seenAfter rest seen else seenAfter rest (x :: seen)

/-- The `(start, end)` tokens of the parsed parts of a multi-token spec. -/
def tokensOfParts (parts : List (List Char)) : List (Nat × Nat) :=
  parts.filterMap parseMultiToken

/-- Decidable well-formedness of a multi-token range spec: every token
parses and both bounds are at least 1. -/
def validMultiTokens (parts : List (List Char)) : Bool :=
  parts.all (fun p =>
    match parseMultiToken p with
    | some se => 1 ≤ se.1 && 1 ≤ se.2
    | none => false)

/-- The candidate index numbers a token list contributes, in scan order. -/
def numsOfTokens (tokens : List (Nat × Nat)) (total : Nat) : List Nat :=
  tokens.flatMap (fun se =>
    (List.range' (min se.1 se.2) (max se.1 se.2 + 1 - min se.1 se.2)).filter (· ≤ total))

end Segmentation

namespace SceneCache

/-- A cache row whose only link to the lookup target is a foreign
reference-image id: after migration its profile carries a non-empty
reference-id set disjoint from the target's, shares no reference path with
the target, and has a different (or empty) character key. Rows that do not
migrate are dead and trivially unreturnable. -/
def onlyForeignIds (hash : String → String) (target_profile : MatchProfile)
    (e : RawEntry) : Bool :=
  match migrate_entry_schema hash e with
  | none => true
  | some m =>
    let cp := entry_match_profile m
    let target_ids := profile_reference_image_ids_p target_profile
    let candidate_ids := profile_reference_image_ids_p cp
    let target_paths := profile_reference_image_paths_p target_profile
    let candidate_paths := profile_reference_image_paths_p cp
    let target_key := normalize_text target_profile.character_key
    let candidate_key := normalize_text cp.character_key
    candidate_ids ≠ []
      && target_ids.all (fun x => !candidate_ids.contains x)
      && !(target_paths ≠ [] && candidate_paths ≠ []
        && target_paths.any (fun x => candidate_paths.contains x))
      && !(target_key ≠ "" && candidate_key ≠ "" && target_key = candidate_key)

end SceneCache

namespace VideoService

open SceneCache

/-- Success condition of fallback (a): the lenient forced-LLM pick exists
with a usable image path. -/
def forcedPickOk (hash : String → String) (fileExists : String → Bool)
    (parsed : Option ParsedSelection) (descriptor : SceneDescriptor)
    (entries : List RawEntry) (recent : List String) : Bool :=
  match force_llm_select_scene_image hash fileExists parsed descriptor entries recent with
  | some pick => pick.image_path ≠ ""
  | none => false

/-- Success condition of fallback (b): a random same-character cache entry
exists. -/
def charPickOk (hash : String → String) (fileExists : String → Bool)
    (entries : List RawEntry) (recent : List String)
    (characterName characterRefPath : String) (choice : Nat) : Bool :=
  match pick_random_current_character_cache_entry hash fileExists entries recent
      characterName characterRefPath choice with
  | some m => m.image_path ≠ ""
  | none => false

/-- Success condition of fallback (c): the character's own reference image
exists with a supported suffix. -/
def refFallbackOk (characterRefPath : String) (refExists : Bool) : Bool :=
  let suffix := pyLower (String.mk (pathSuffix characterRefPath.data))
  characterRefPath ≠ "" && refExists
    && (suffix = ".png" || suffix = ".jpg" || suffix = ".jpeg" || suffix = ".webp")

/-- Success condition of fallback (d): a random scene-only cache entry
exists. -/
def sceneOnlyPickOk (hash : String → String) (fileExists : String → Bool)
    (entries : List RawEntry) (recent : List String) (choice : Nat) : Bool :=
  match pick_random_scene_only_cache_entry hash fileExists entries recent choice with
  | some m => m.image_path ≠ ""
  | none => false

/-- Success condition of fallback (e): any live cache entry remains. -/
def randomCacheAvailable (hash : String → String) (fileExists : String → Bool)
    (entries : List RawEntry) (recent : List String) : Bool :=
  list_scene_cache_entries hash fileExists entries recent ≠ []

/-- Entry id reported by fallback (b). -/
def charPickId (hash : String → String) (fileExists : String → Bool)
    (entries : List RawEntry) (recent : List String)
    (characterName characterRefPath : String) (choice : Nat) : String :=
  match pick_random_current_character_cache_entry hash fileExists entries recent
      characterName characterRefPath choice with
  | some m => m.id
  | none => ""

/-- Entry id reported by fallback (d). -/
def sceneOnlyPickId (hash : String → String) (fileExists : String → Bool)
    (entries : List RawEntry) (recent : List String) (choice : Nat) : String :=
  match pick_random_scene_only_cache_entry hash fileExists entries recent choice with
  | some m => m.id
  | none => ""

/-- Entry id reported by fallback (e). -/
def randomCacheId (hash : String → String) (fileExists : String → Bool)
    (entries : List RawEntry) (recent : List String) (choice : Nat) : String :=
  let candidates := list_scene_cache_entries hash fileExists entries recent
  (candidates.getD (choice % candidates.length) dummyMigratedEntry).id

end VideoService

/-! ## Theorems -/

/-- Claim C6 fails as stated: on the S1 input the splitter keeps the whole
run of five `?` characters attached, so the third unit has five question
marks, not the four the claim lists. -/
theorem claim_C6_counterexample :
    ¬ (LLMService.split_sentences "今天好热,明天更热。3.14 来了?????" =
      ["今天好热,", "明天更热。", "3.14 来了????"]) := by
  decide

/-- Claim C6 (amended): splitting `"今天好热,明天更热。3.14 来了?????"` yields
`["今天好热,", "明天更热。", "3.14 来了?????"]` — the `.` between digits does
not split, and the trailing run of `?` stays attached as one unit, keeping
all five question marks. -/
theorem claim_C6 :
    LLMService.split_sentences "今天好热,明天更热。3.14 来了?????" =
      ["今天好热,", "明天更热。", "3.14 来了?????"] := by
  decide

/-- Claim C5: when the compose stage is entered uncancelled and the final
output file already exists as a regular file of at least 16 KiB, the worker
marks the job completed with that output path and does not run final
composition. -/
theorem claim_C5 (cancelled final_exists final_is_file : Bool)
    (stat_size : Option Int) (output_path : String)
    (hc : cancelled = false) (he : final_exists = true) (hf : final_is_file = true)
    (hs : ∃ n, stat_size = some n ∧ 16384 ≤ n) :
    VideoService.composeStageEntry cancelled final_exists final_is_file stat_size output_path
      = .completedExisting output_path := by
  obtain ⟨n, rfl, hn⟩ := hs
  subst hc he hf
  simp [VideoService.composeStageEntry, hn]

/-- Witness for C5 at a concrete 16 KiB file. -/
theorem claim_C5_witness :
    VideoService.composeStageEntry false true true (some 16384) "output/job.mp4"
      = .completedExisting "output/job.mp4" :=
  claim_C5 false true true (some 16384) "output/job.mp4" rfl rfl rfl
    ⟨16384, rfl, le_refl 16384⟩

/-- Claim C9 names a code bug: the image-provider request built by
`_build_messages` carries at most one `image_url` part — the second
(related-character) reference image the spec promises is never attached
(and the caller's `extra_reference_image_paths=` keyword does not even
exist on `use_reference_or_generate`). -/
theorem claim_C9 (fileExists : String → Bool) (encoded prompt reference_image_path : String) :
    ImageService.countImageParts
      (ImageService.build_messages fileExists encoded prompt reference_image_path) ≤ 1 := by
  unfold ImageService.build_messages
  split
  · dsimp only
    split
    · simp [ImageService.countImageParts]
    · simp [ImageService.countImageParts]
  · simp [ImageService.countImageParts]

/-- `_clean_segments` is the identity on a list of already-trimmed,
non-empty segments. -/
theorem Segmentation.clean_segments_of_clean (l : List String)
    (h : ∀ s ∈ l, pyStrip s = s ∧ s ≠ "") :
    Segmentation.clean_segments l = l := by
  induction l with
  | nil => rfl
  | cons x t ih =>
    have hx := h x (by simp)
    have ht := ih (fun s hs => h s (by simp [hs]))
    simp only [Segmentation.clean_segments, List.filterMap_cons] at ht ⊢
    rw [hx.1]
    simp [hx.2, ht]

/-- Claim C3: for a request carrying a non-empty signature and a non-empty
list of trimmed precomputed segments, the segmentation step returns the
precomputed vector unchanged exactly when the provided signature equals the
one recomputed over `{text, method, sentences_per_segment, fixed_size,
model_id}`; on a mismatch the precomputed vector is ignored (`none`, so the
caller recomputes from the text). -/
theorem claim_C3 (hash : String → String) (text method : String)
    (sentences_per_segment fixed_size : Int) (model_id sig : String)
    (pre : List String)
    (hstrip : pyStrip sig = sig) (hsig : sig ≠ "") (hpre : pre ≠ [])
    (hclean : ∀ s ∈ pre, pyStrip s = s ∧ s ≠ "") :
    (Segmentation.resolve_precomputed_segments hash text method sentences_per_segment
        fixed_size model_id sig pre = some pre
      ↔ sig = Segmentation.build_segment_request_signature hash text method
          sentences_per_segment fixed_size model_id)
    ∧ (sig ≠ Segmentation.build_segment_request_signature hash text method
          sentences_per_segment fixed_size model_id
        → Segmentation.resolve_precomputed_segments hash text method sentences_per_segment
            fixed_size model_id sig pre = none) := by
  have hcleaned := Segmentation.clean_segments_of_clean pre hclean
  unfold Segmentation.resolve_precomputed_segments
  rw [hstrip, if_neg hsig]
  by_cases heq : sig = Segmentation.build_segment_request_signature hash text method
      sentences_per_segment fixed_size model_id
  · rw [if_neg (not_not_intro heq), hcleaned, if_neg hpre]
    refine And.intro (Iff.intro (fun _ => heq) (fun _ => rfl)) (fun hne => absurd heq hne)
  · rw [if_pos heq]
    refine And.intro (Iff.intro (fun h => by cases h) (fun h => absurd h heq)) (fun _ => rfl)

/-- Witness for C3 on the S2 scenario: a matching signature returns the
precomputed vector verbatim. -/
theorem claim_C3_witness :
    Segmentation.resolve_precomputed_segments (fun s => s) "A。B。C。D。" "sentence" 2 120 ""
      (Segmentation.build_segment_request_signature (fun s => s) "A。B。C。D。" "sentence" 2 120 "")
      ["A。B。", "C。D。"] = some ["A。B。", "C。D。"] :=
  (claim_C3 (fun s => s) "A。B。C。D。" "sentence" 2 120 ""
    (Segmentation.build_segment_request_signature (fun s => s) "A。B。C。D。" "sentence" 2 120 "")
    ["A。B。", "C。D。"] (by decide) (by decide) (by decide) (by decide)).1.mpr rfl

/-- Because `_migrate_entry_schema` rebuilds `descriptor` and
`match_profile` with fixed key sets, every migrated row fails
`_entry_is_scene_only` and the scene-only random picker never finds a
candidate. -/
theorem VideoService.scene_only_pick_none (hash : String → String) (fe : String → Bool)
    (entries : List SceneCache.RawEntry) (disallow : List String) (choice : Nat) :
    VideoService.pick_random_scene_only_cache_entry hash fe entries disallow choice
      = none := by
  unfold VideoService.pick_random_scene_only_cache_entry
  dsimp only
  by_cases hc : SceneCache.list_scene_cache_entries hash fe entries disallow = []
  · rw [if_pos hc]
  · rw [if_neg hc]
    have hm : (SceneCache.list_scene_cache_entries hash fe entries disallow).filter
        (fun m => fe m.image_path && VideoService.entry_is_scene_only m) = [] := by
      rw [List.filter_eq_nil_iff]
      intro m _
      simp [VideoService.entry_is_scene_only]
    rw [hm, if_pos rfl]

/-- Fallback (d) of the resolver can never succeed. -/
theorem VideoService.sceneOnlyPickOk_false (hash : String → String) (fe : String → Bool)
    (entries : List SceneCache.RawEntry) (recent : List String) (choice : Nat) :
    VideoService.sceneOnlyPickOk hash fe entries recent choice = false := by
  rw [VideoService.sceneOnlyPickOk, VideoService.scene_only_pick_none]

/-- Claim C2 against the code as written: when the scene-reuse lookup does
not hit and remote image generation fails, the resolver tries forced-LLM
pick (`fallback-llm`), random same-character cache entry
(`fallback-character-cache`), the character's own reference image
(`fallback-reference`), then — because `_migrate_entry_schema` drops the
`is_scene_only` marker, so the scene-only tier can never succeed (conjunct
4) and the label `fallback-scene-only-cache` is never produced (last
conjunct), contrary to the claim and spec S6 — any random live entry
(`fallback-random-cache`); the generation error is raised if and only if
those four fail. -/
theorem claim_C2 (hash : String → String) (fileExists : String → Bool)
    (parsedStrict parsedLenient : Option SceneCache.ParsedSelection)
    (enable : Bool) (descriptor : SceneCache.SceneDescriptor)
    (entries : List SceneCache.RawEntry) (recent : List String) (genMsg : String)
    (characterName characterRefPath : String) (refExists : Bool)
    (choiceChar choiceSceneOnly choiceRandom : Nat) (image_path saved_id : String)
    (R : Except String VideoService.ResolveOutcome)
    (hR : R = VideoService.resolve_segment_image hash fileExists parsedStrict parsedLenient
      enable descriptor entries recent (.error genMsg) characterName characterRefPath
      refExists choiceChar choiceSceneOnly choiceRandom image_path saved_id)
    (hmiss : enable = false ∨
      SceneCache.find_reusable_scene_image hash fileExists parsedStrict descriptor entries
        recent = none) :
    (VideoService.forcedPickOk hash fileExists parsedLenient descriptor entries recent = true
      → R = .ok ⟨image_path, "fallback-llm",
          VideoService.optId (SceneCache.force_llm_select_scene_image hash fileExists
            parsedLenient descriptor entries recent)⟩)
    ∧ (VideoService.forcedPickOk hash fileExists parsedLenient descriptor entries recent = false
      → VideoService.charPickOk hash fileExists entries recent characterName characterRefPath
          choiceChar = true
      → R = .ok ⟨image_path, "fallback-character-cache",
          VideoService.charPickId hash fileExists entries recent characterName characterRefPath
            choiceChar⟩)
    ∧ (VideoService.forcedPickOk hash fileExists parsedLenient descriptor entries recent = false
      → VideoService.charPickOk hash fileExists entries recent characterName characterRefPath
          choiceChar = false
      → VideoService.refFallbackOk characterRefPath refExists = true
      → R = .ok ⟨image_path, "fallback-reference", ""⟩)
    ∧ VideoService.sceneOnlyPickOk hash fileExists entries recent choiceSceneOnly = false
    ∧ (VideoService.forcedPickOk hash fileExists parsedLenient descriptor entries recent = false
      → VideoService.charPickOk hash fileExists entries recent characterName characterRefPath
          choiceChar = false
      → VideoService.refFallbackOk characterRefPath refExists = false
      → VideoService.randomCacheAvailable hash fileExists entries recent = true
      → R = .ok ⟨image_path, "fallback-random-cache",
          VideoService.randomCacheId hash fileExists entries recent choiceRandom⟩)
    ∧ (R = .error "image generation failed and no fallback scene/reference image available"
      ↔ (VideoService.forcedPickOk hash fileExists parsedLenient descriptor entries recent = false
        ∧ VideoService.charPickOk hash fileExists entries recent characterName characterRefPath
            choiceChar = false
        ∧ VideoService.refFallbackOk characterRefPath refExists = false
        ∧ VideoService.randomCacheAvailable hash fileExists entries recent = false))
    ∧ (∀ out : VideoService.ResolveOutcome,
      R = .ok out → out.source ≠ "fallback-scene-only-cache") := by
  have hstrict : (if enable = true then
      SceneCache.find_reusable_scene_image hash fileExists parsedStrict descriptor entries
        recent else none) = none := by
    rcases hmiss with h | h
    · simp [h]
    · simp [h]
  subst hR
  unfold VideoService.resolve_segment_image
  rw [hstrict]
  dsimp only
  simp only [Bool.false_eq_true, if_false]
  have hd0 := VideoService.sceneOnlyPickOk_false hash fileExists entries recent
    choiceSceneOnly
  have hd : (match VideoService.pick_random_scene_only_cache_entry hash fileExists
      entries recent choiceSceneOnly with
    | some m => decide (m.image_path ≠ "")
    | none => false) = false := by
    rw [VideoService.sceneOnlyPickOk] at hd0
    exact hd0
  have hd2 : (match VideoService.pick_random_scene_only_cache_entry hash fileExists
      entries recent choiceSceneOnly with
    | some m => !decide (m.image_path = "")
    | none => false) = false := by
    simpa only [ne_eq, decide_not] using hd
  refine ⟨?_, ?_, ?_, hd0, ?_, ?_, ?_⟩
  · intro ha
    rw [VideoService.forcedPickOk] at ha
    simp only [ha, if_true, VideoService.optId]
  · intro ha hb
    rw [VideoService.forcedPickOk] at ha
    rw [VideoService.charPickOk] at hb
    simp only [ha, hb, VideoService.charPickId, if_true, Bool.false_eq_true, if_false]
  · intro ha hb hc
    rw [VideoService.forcedPickOk] at ha
    rw [VideoService.charPickOk] at hb
    rw [VideoService.refFallbackOk] at hc
    simp only [ha, hb, hc, if_true, Bool.false_eq_true, if_false]
  · intro ha hb hc he
    rw [VideoService.forcedPickOk] at ha
    rw [VideoService.charPickOk] at hb
    rw [VideoService.refFallbackOk] at hc
    rw [VideoService.randomCacheAvailable] at he
    have he' : ¬ SceneCache.list_scene_cache_entries hash fileExists entries recent = [] := by
      intro hcontra
      rw [hcontra] at he
      simp at he
    simp only [ha, hb, hc, hd, VideoService.randomCacheId, if_true, Bool.false_eq_true,
      if_false, if_neg he']
  · rw [VideoService.forcedPickOk, VideoService.charPickOk, VideoService.refFallbackOk,
      VideoService.randomCacheAvailable]
    constructor
    · intro herr
      by_cases ha : (match SceneCache.force_llm_select_scene_image hash fileExists parsedLenient
          descriptor entries recent with
        | some pick => decide (pick.image_path ≠ "")
        | none => false) = true
      · rw [if_pos ha] at herr
        cases herr
      · rw [if_neg ha] at herr
        by_cases hb : (match VideoService.pick_random_current_character_cache_entry hash
            fileExists entries recent characterName characterRefPath choiceChar with
          | some m => decide (m.image_path ≠ "")
          | none => false) = true
        · rw [if_pos hb] at herr
          cases herr
        · rw [if_neg hb] at herr
          by_cases hc : (characterRefPath ≠ "" && refExists
              && (pyLower (String.mk (SceneCache.pathSuffix characterRefPath.data)) = ".png"
                || pyLower (String.mk (SceneCache.pathSuffix characterRefPath.data)) = ".jpg"
                || pyLower (String.mk (SceneCache.pathSuffix characterRefPath.data)) = ".jpeg"
                || pyLower (String.mk (SceneCache.pathSuffix characterRefPath.data)) = ".webp")) = true
          · rw [if_pos hc] at herr
            cases herr
          · rw [if_neg hc] at herr
            rw [if_neg (by simp [hd2])] at herr
            by_cases he : SceneCache.list_scene_cache_entries hash fileExists entries
                recent = []
            · exact ⟨Bool.eq_false_iff.mpr ha, Bool.eq_false_iff.mpr hb,
                Bool.eq_false_iff.mpr hc, by simp [he]⟩
            · rw [if_neg he] at herr
              cases herr
    · rintro ⟨ha, hb, hc, he⟩
      have he' : SceneCache.list_scene_cache_entries hash fileExists entries recent = [] := by
        by_contra hne
        simp [hne] at he
      simp only [ne_eq, decide_not] at ha hb hc
      simp only [ne_eq, decide_not]
      rw [if_neg (by simp [ha]), if_neg (by simp [hb]), if_neg (by simp [hc]),
        if_neg (by simp [hd2]), if_pos he']
  · intro out hout
    by_cases ha : (match SceneCache.force_llm_select_scene_image hash fileExists parsedLenient
        descriptor entries recent with
      | some pick => decide (pick.image_path ≠ "")
      | none => false) = true
    · rw [if_pos ha] at hout
      injection hout with h'
      rw [← h']
      simp
    · rw [if_neg ha] at hout
      by_cases hb : (match VideoService.pick_random_current_character_cache_entry hash
          fileExists entries recent characterName characterRefPath choiceChar with
        | some m => decide (m.image_path ≠ "")
        | none => false) = true
      · rw [if_pos hb] at hout
        injection hout with h'
        rw [← h']
        simp
      · rw [if_neg hb] at hout
        by_cases hc : (characterRefPath ≠ "" && refExists
            && (pyLower (String.mk (SceneCache.pathSuffix characterRefPath.data)) = ".png"
              || pyLower (String.mk (SceneCache.pathSuffix characterRefPath.data)) = ".jpg"
              || pyLower (String.mk (SceneCache.pathSuffix characterRefPath.data)) = ".jpeg"
              || pyLower (String.mk (SceneCache.pathSuffix characterRefPath.data)) = ".webp")) = true
        · rw [if_pos hc] at hout
          injection hout with h'
          rw [← h']
          simp
        · rw [if_neg hc] at hout
          rw [if_neg (by simp [hd2])] at hout
          by_cases he : SceneCache.list_scene_cache_entries hash fileExists entries
              recent = []
          · rw [if_pos he] at hout
            cases hout
          · rw [if_neg he] at hout
            injection hout with h'
            rw [← h']
            simp

/-- Inserting into a stable descending sort permutes consing. -/
theorem pySortDescInsert_perm (key : α → Int) (x : α) (l : List α) :
    (pySortDescInsert key x l).Perm (x :: l) := by
  induction l with
  | nil => exact List.Perm.refl _
  | cons y rest ih =>
    unfold pySortDescInsert
    split
    · exact List.Perm.refl _
    · exact (ih.cons y).trans (List.Perm.swap x y rest)

/-- The stable descending sort permutes its input. -/
theorem pySortDesc_perm (key : α → Int) (l : List α) : (pySortDesc key l).Perm l := by
  suffices h : ∀ (l acc : List α),
      (l.foldl (fun acc x => pySortDescInsert key x acc) acc).Perm (l ++ acc) by
    simpa using h l []
  intro l
  induction l with
  | nil => intro acc; exact List.Perm.refl _
  | cons x rest ih =>
    intro acc
    simp only [List.foldl_cons, List.cons_append]
    refine (ih (pySortDescInsert key x acc)).trans ?_
    refine (List.Perm.append_left rest (pySortDescInsert_perm key x acc)).trans ?_
    exact List.perm_middle

/-- Members of the sorted list are members of the original list. -/
theorem mem_of_mem_sort {key : α → Int} {l : List α} {x : α}
    (h : x ∈ pySortDesc key l) : x ∈ l :=
  (pySortDesc_perm key l).mem_iff.mp h

/-- The head-with-default of a sort of a non-empty list is one of its
elements. -/
theorem headD_sort_mem (key : α → Int) (x : α) (l : List α) (d : α) :
    (pySortDesc key (x :: l)).headD d ∈ x :: l := by
  have hperm := pySortDesc_perm key (x :: l)
  match hs : pySortDesc key (x :: l) with
  | [] =>
    have := hperm.length_eq
    rw [hs] at this
    simp at this
  | y :: rest =>
    have hy : y ∈ pySortDesc key (x :: l) := by rw [hs]; exact List.mem_cons_self y rest
    simpa using hperm.mem_iff.mp hy

/-- The strict lookup's short list draws from its `viable` list. -/
theorem SceneCache.mem_findTop {hash : String → String} {fe : String → Bool}
    {tp : SceneCache.MatchProfile} {entries : List SceneCache.RawEntry}
    {blocked : List String} {v : SceneCache.ViableEntry}
    (h : v ∈ SceneCache.findTop hash fe tp entries blocked) :
    v ∈ SceneCache.viableEntries hash fe tp entries blocked := by
  rw [SceneCache.findTop] at h
  exact mem_of_mem_sort (List.take_subset _ _ h)

/-- Inversion of membership in the strict lookup's `viable` list. -/
theorem SceneCache.mem_viableEntries {hash : String → String} {fe : String → Bool}
    {tp : SceneCache.MatchProfile} {entries : List SceneCache.RawEntry}
    {blocked : List String} {v : SceneCache.ViableEntry}
    (hv : v ∈ SceneCache.viableEntries hash fe tp entries blocked) :
    ∃ e ∈ entries, ¬(e.id ≠ "" ∧ e.id ∈ blocked) ∧
      ∃ m, SceneCache.migrate_entry_schema hash e = some m ∧ fe m.image_path = true ∧
        v.id = m.id ∧ v.profile = SceneCache.entry_match_profile m ∧
        SceneCache.text_match_verdict tp (SceneCache.entry_match_profile m)
          = (true, v.details) := by
  rw [SceneCache.viableEntries, List.mem_filterMap] at hv
  obtain ⟨e, he, hf⟩ := hv
  refine ⟨e, he, ?_⟩
  split at hf
  · cases hf
  · rename_i hnb
    refine ⟨?_, ?_⟩
    · intro hcontra
      simp only [ne_eq, Bool.and_eq_true, decide_eq_true_eq] at hnb
      exact hnb ⟨hcontra.1, by simpa using hcontra.2⟩
    · split at hf
      · cases hf
      · rename_i m hm
        split at hf
        · cases hf
        · rename_i hfe
          dsimp only at hf
          split at hf
          · cases hf
          · rename_i details hverdict
            refine ⟨m, hm, by simpa using hfe, ?_, ?_, ?_⟩
            · cases hf; rfl
            · cases hf; rfl
            · cases hf; exact hverdict

/-- Inversion of membership in the lenient lookup's candidate list. -/
theorem SceneCache.mem_forceCandidates {hash : String → String} {fe : String → Bool}
    {tp : SceneCache.MatchProfile} {entries : List SceneCache.RawEntry}
    {blocked : List String} {c : SceneCache.ForceCandidate}
    (hc : c ∈ SceneCache.forceCandidates hash fe tp entries blocked) :
    ∃ e ∈ entries, ¬(e.id ≠ "" ∧ e.id ∈ blocked) ∧
      ∃ m, SceneCache.migrate_entry_schema hash e = some m ∧ fe m.image_path = true ∧
        c.id = m.id ∧ c.profile = SceneCache.entry_match_profile m := by
  rw [SceneCache.forceCandidates, List.mem_filterMap] at hc
  obtain ⟨e, he, hf⟩ := hc
  refine ⟨e, he, ?_⟩
  split at hf
  · cases hf
  · rename_i hnb
    refine ⟨?_, ?_⟩
    · intro hcontra
      simp only [ne_eq, Bool.and_eq_true, decide_eq_true_eq] at hnb
      exact hnb ⟨hcontra.1, by simpa using hcontra.2⟩
    · split at hf
      · cases hf
      · rename_i m hm
        split at hf
        · cases hf
        · rename_i hfe
          dsimp only at hf
          refine ⟨m, hm, by simpa using hfe, ?_, ?_⟩
          · cases hf; rfl
          · cases hf; rfl

/-- The migrated row keeps the stored id, falling back to the fresh uuid
only when the stored id is empty. -/
theorem SceneCache.migrate_id {hash : String → String} {e : SceneCache.RawEntry}
    {m : SceneCache.MigratedEntry}
    (h : SceneCache.migrate_entry_schema hash e = some m) :
    m.id = if e.id = "" then e.freshId else e.id := by
  unfold SceneCache.migrate_entry_schema at h
  dsimp only at h
  by_cases hip : SceneCache.normalize_text e.image_path = ""
  · rw [if_pos hip] at h
    cases h
  · rw [if_neg hip] at h
    injection h with h'
    subst h'
    rfl

/-- Every result of the strict lookup originates from a `viable` entry. -/
theorem SceneCache.find_some_mem {hash : String → String} {fe : String → Bool}
    {parsed : Option SceneCache.ParsedSelection} {d : SceneCache.SceneDescriptor}
    {entries : List SceneCache.RawEntry} {disallow : List String}
    {r : SceneCache.LookupResult}
    (h : SceneCache.find_reusable_scene_image hash fe parsed d entries disallow = some r) :
    ∃ v ∈ SceneCache.viableEntries hash fe
        (SceneCache.build_match_profile hash (SceneCache.normalize_scene_descriptor d))
        entries (SceneCache.blockedIds disallow),
      r.entry_id = v.id := by
  unfold SceneCache.find_reusable_scene_image at h
  dsimp only at h
  split at h
  · cases h
  · split at h
    · rename_i best restExact hexact
      cases h
      have hmem := headD_sort_mem (fun v : SceneCache.ViableEntry => (v.details.rank_key : Int))
        best restExact best
      have hmemf : (pySortDesc (fun v : SceneCache.ViableEntry => (v.details.rank_key : Int))
          (best :: restExact)).headD best ∈ (SceneCache.findTop hash fe
            (SceneCache.build_match_profile hash (SceneCache.normalize_scene_descriptor d))
            entries (SceneCache.blockedIds disallow)).filter
            (SceneCache.sameActionLocation (SceneCache.build_match_profile hash
              (SceneCache.normalize_scene_descriptor d))) := by
        rw [hexact]
        exact hmem
      have hmem2 := SceneCache.mem_findTop (List.mem_of_mem_filter hmemf)
      exact ⟨_, hmem2, rfl⟩
    · split at h
      · cases h
      · rename_i first restTop htop
        have hfirst : first ∈ SceneCache.findTop hash fe
            (SceneCache.build_match_profile hash (SceneCache.normalize_scene_descriptor d))
            entries (SceneCache.blockedIds disallow) := by
          rw [htop]; exact List.mem_cons_self first restTop
        have hfirstv := SceneCache.mem_findTop hfirst
        split at h
        · cases h; exact ⟨first, hfirstv, rfl⟩
        · split at h
          · cases h
          · split at h
            · cases h
            · split at h
              · rename_i r' hr'
                cases h
                rcases hsel : (SceneCache.llm_match_candidate parsed
                    (SceneCache.build_match_profile hash
                      (SceneCache.normalize_scene_descriptor d))
                    ((SceneCache.findTop hash fe
                      (SceneCache.build_match_profile hash
                        (SceneCache.normalize_scene_descriptor d))
                      entries (SceneCache.blockedIds disallow)).map
                      (fun v => (v.id, v.profile))) true).1 with _ | sel
                · rw [hsel] at hr'
                  simp at hr'
                · rw [hsel] at hr'
                  dsimp only at hr'
                  rw [Option.map_eq_some'] at hr'
                  obtain ⟨s, hs, hrs⟩ := hr'
                  have hsmem := SceneCache.mem_findTop (List.mem_of_find?_eq_some hs)
                  refine ⟨s, hsmem, ?_⟩
                  rw [← hrs]
              · rename_i hnone
                split at h
                · cases h
                · split at h
                  · cases h
                    exact ⟨first, hfirstv, rfl⟩
                  · cases h

/-- A short-listed lenient candidate is a candidate. -/
theorem SceneCache.mem_forceTop {hash : String → String} {fe : String → Bool}
    {tp : SceneCache.MatchProfile} {entries : List SceneCache.RawEntry}
    {blocked : List String} {c : SceneCache.ForceCandidate}
    (h : c ∈ SceneCache.forceTop hash fe tp entries blocked) :
    c ∈ SceneCache.forceCandidates hash fe tp entries blocked := by
  unfold SceneCache.forceTop at h
  exact mem_of_mem_sort (List.take_subset _ _ h)

/-- Every result of the lenient lookup originates from a candidate row. -/
theorem SceneCache.force_some_mem {hash : String → String} {fe : String → Bool}
    {parsed : Option SceneCache.ParsedSelection} {d : SceneCache.SceneDescriptor}
    {entries : List SceneCache.RawEntry} {disallow : List String}
    {r : SceneCache.LookupResult}
    (h : SceneCache.force_llm_select_scene_image hash fe parsed d entries disallow = some r) :
    ∃ c ∈ SceneCache.forceCandidates hash fe
        (SceneCache.build_match_profile hash (SceneCache.normalize_scene_descriptor d))
        entries (SceneCache.blockedIds disallow),
      r.entry_id = c.id := by
  unfold SceneCache.force_llm_select_scene_image at h
  dsimp only at h
  split at h
  · cases h
  · split at h
    · cases h
    · rename_i sel hsel
      rw [Option.map_eq_some'] at h
      obtain ⟨s, hs, hrs⟩ := h
      have hsmem := SceneCache.mem_forceTop (List.mem_of_find?_eq_some hs)
      refine ⟨s, hsmem, ?_⟩
      rw [← hrs]

/-- First-occurrence dedup distributes over append through the seen set. -/
theorem dedupFirstAux_append [DecidableEq α] (a b seen : List α) :
    dedupFirstAux (a ++ b) seen
      = dedupFirstAux a seen ++ dedupFirstAux b (Segmentation.seenAfter a seen) := by
  induction a generalizing seen with
  | nil => rfl
  | cons x rest ih =>
    by_cases hx : x ∈ seen
    · simp only [List.cons_append, dedupFirstAux, Segmentation.seenAfter, hx, if_true,
        List.append_eq]
      exact ih seen
    · simp only [List.cons_append, dedupFirstAux, Segmentation.seenAfter, hx, if_false,
        List.append_eq]
      rw [ih]

/-- The seen set after an appended list. -/
theorem seenAfter_append [DecidableEq α] (a b seen : List α) :
    Segmentation.seenAfter (a ++ b) seen
      = Segmentation.seenAfter b (Segmentation.seenAfter a seen) := by
  induction a generalizing seen with
  | nil => rfl
  | cons x rest ih =>
    by_cases hx : x ∈ seen
    · simp only [List.cons_append, Segmentation.seenAfter, hx, if_true, List.append_eq]
      exact ih seen
    · simp only [List.cons_append, Segmentation.seenAfter, hx, if_false, List.append_eq]
      exact ih (x :: seen)

/-- First-occurrence dedup emits no duplicates and nothing already seen. -/
theorem dedupFirstAux_nodup [DecidableEq α] (l seen : List α) :
    (dedupFirstAux l seen).Nodup ∧ ∀ x ∈ dedupFirstAux l seen, x ∉ seen := by
  induction l generalizing seen with
  | nil => exact ⟨List.nodup_nil, by simp [dedupFirstAux]⟩
  | cons x rest ih =>
    simp only [dedupFirstAux]
    by_cases hx : x ∈ seen
    · rw [if_pos hx]
      exact ih seen
    · rw [if_neg hx]
      obtain ⟨hnd, hns⟩ := ih (x :: seen)
      refine ⟨List.nodup_cons.mpr ⟨?_, hnd⟩, ?_⟩
      · intro hmem
        exact hns x hmem (List.mem_cons_self x seen)
      · intro y hy hyseen
        rcases List.mem_cons.mp hy with rfl | hy'
        · exact hx hyseen
        · exact hns y hy' (List.mem_cons_of_mem x hyseen)

/-- First-occurrence dedup only emits elements of its input. -/
theorem dedupFirstAux_subset [DecidableEq α] (l seen : List α) :
    ∀ x ∈ dedupFirstAux l seen, x ∈ l := by
  induction l generalizing seen with
  | nil => simp [dedupFirstAux]
  | cons y rest ih =>
    simp only [dedupFirstAux]
    by_cases hy : y ∈ seen
    · rw [if_pos hy]
      intro x hx
      exact List.mem_cons_of_mem y (ih seen x hx)
    · rw [if_neg hy]
      intro x hx
      rcases List.mem_cons.mp hx with rfl | hx'
      · exact List.mem_cons_self x rest
      · exact List.mem_cons_of_mem y (ih (y :: seen) x hx')

/-- An index interval starting above the segment count is clipped away. -/
theorem Segmentation.range'_filter_gt (n count total : Nat) (h : total < n) :
    (List.range' n count).filter (· ≤ total) = [] := by
  rw [List.filter_eq_nil_iff]
  intro m hm
  rw [List.mem_range'] at hm
  obtain ⟨i, _, rfl⟩ := hm
  simp only [decide_eq_true_eq]
  omega

/-- The inner number loop of `select_segments_by_range` appends exactly the
not-yet-seen indexes of the clipped interval (break-at-`total` equals
clipping since the interval ascends). -/
theorem Segmentation.addRangeNumbers_spec (segments : List String) (total : Nat) :
    ∀ (count n : Nat) (sel : List String) (seen : List Nat),
    Segmentation.addRangeNumbers segments total count n sel seen
      = (sel ++ (dedupFirstAux ((List.range' n count).filter (· ≤ total)) seen).map
          (fun k => segments.getD (k - 1) ""),
        Segmentation.seenAfter ((List.range' n count).filter (· ≤ total)) seen) := by
  intro count
  induction count with
  | zero => intro n sel seen; simp [Segmentation.addRangeNumbers, dedupFirstAux,
      Segmentation.seenAfter]
  | succ k ih =>
    intro n sel seen
    rw [Segmentation.addRangeNumbers]
    by_cases hn : n > total
    · rw [if_pos hn, Segmentation.range'_filter_gt n (k + 1) total hn]
      simp [dedupFirstAux, Segmentation.seenAfter]
    · rw [if_neg hn]
      have hrange : List.range' n (k + 1) = n :: List.range' (n + 1) k := by
        rw [List.range'_succ]
      have hfilter : (List.range' n (k + 1)).filter (· ≤ total)
          = n :: (List.range' (n + 1) k).filter (· ≤ total) := by
        rw [hrange, List.filter_cons, if_pos (by simpa using Nat.le_of_not_lt hn)]
      rw [hfilter]
      by_cases hseen : n ∈ seen
      · rw [if_pos hseen]
        simp only [dedupFirstAux, Segmentation.seenAfter, if_pos hseen]
        exact ih (n + 1) sel seen
      · rw [if_neg hseen]
        simp only [dedupFirstAux, Segmentation.seenAfter, if_neg hseen]
        rw [ih (n + 1) (sel ++ [segments.getD (n - 1) ""]) (n :: seen)]
        simp [List.append_assoc]

/-- The token loop of `select_segments_by_range` in multi-token mode equals
first-occurrence dedup over the clipped candidate numbers. -/
theorem Segmentation.selectLoop_spec (segments : List String) :
    ∀ (parts : List (List Char)) (sel : List String) (seen : List Nat),
    Segmentation.validMultiTokens parts = true →
    Segmentation.selectLoop segments segments.length false parts sel seen
      = .ok (sel ++ (dedupFirstAux
          (Segmentation.numsOfTokens (Segmentation.tokensOfParts parts) segments.length)
          seen).map (fun k => segments.getD (k - 1) "")) := by
  intro parts
  induction parts with
  | nil =>
    intro sel seen _
    simp [Segmentation.selectLoop, Segmentation.tokensOfParts, Segmentation.numsOfTokens,
      dedupFirstAux, List.filterMap_nil]
  | cons part rest ih =>
    intro sel seen hvalid
    simp only [Segmentation.validMultiTokens, List.all_cons, Bool.and_eq_true] at hvalid
    obtain ⟨hpart, hrest⟩ := hvalid
    match hparse : Segmentation.parseMultiToken part with
    | none => rw [hparse] at hpart; cases hpart
    | some se =>
      obtain ⟨s1, s2⟩ := se
      rw [hparse] at hpart
      simp only [Bool.and_eq_true, decide_eq_true_eq] at hpart
      obtain ⟨h1, h2⟩ := hpart
      have htoks : Segmentation.tokensOfParts (part :: rest)
          = (s1, s2) :: Segmentation.tokensOfParts rest := by
        simp [Segmentation.tokensOfParts, List.filterMap_cons, hparse]
      have hnums : Segmentation.numsOfTokens
            (Segmentation.tokensOfParts (part :: rest)) segments.length
          = ((List.range' (min s1 s2) (max s1 s2 + 1 - min s1 s2)).filter
              (· ≤ segments.length))
            ++ Segmentation.numsOfTokens (Segmentation.tokensOfParts rest)
                segments.length := by
        rw [htoks]
        simp [Segmentation.numsOfTokens, List.flatMap_cons]
      have hc : ¬(((s1 : Int) ≤ 0 || (s2 : Int) ≤ 0) = true) := by
        simp only [Bool.or_eq_true, decide_eq_true_eq]
        omega
      have hlo : (min ((s1 : Nat) : Int) ((s2 : Nat) : Int)).toNat = min s1 s2 := by omega
      have hhi : (max ((s1 : Nat) : Int) ((s2 : Nat) : Int)).toNat = max s1 s2 := by omega
      by_cases hd : allDigits part = true
      · rw [Segmentation.parseMultiToken, if_pos hd] at hparse
        injection hparse with h
        have hd1 : digitsToNat part = s1 := congrArg Prod.fst h
        have hd2 : digitsToNat part = s2 := congrArg Prod.snd h
        subst hd1
        subst hd2
        rw [Segmentation.selectLoop]
        simp only [Bool.false_eq_true, if_false, hd, eq_self_iff_true, if_true]
        rw [if_neg hc]
        rw [hlo, hhi]
        by_cases hgt : min (digitsToNat part) (digitsToNat part) > segments.length
        · rw [if_pos hgt]
          rw [Segmentation.range'_filter_gt _ _ _ hgt, List.nil_append] at hnums
          rw [hnums]
          exact ih sel seen hrest
        · rw [if_neg hgt, Segmentation.addRangeNumbers_spec]
          dsimp only
          rw [ih _ _ hrest, hnums, dedupFirstAux_append, List.map_append,
            List.append_assoc]
      · have hmr : Segmentation.matchRangeToken part = some (s1, s2) := by
          rw [Segmentation.parseMultiToken, if_neg hd] at hparse
          exact hparse
        rw [Segmentation.selectLoop]
        simp only [Bool.false_eq_true, if_false, hd, hmr]
        rw [if_neg hc]
        rw [hlo, hhi]
        by_cases hgt : min s1 s2 > segments.length
        · rw [if_pos hgt]
          rw [Segmentation.range'_filter_gt _ _ _ hgt, List.nil_append] at hnums
          rw [hnums]
          exact ih sel seen hrest
        · rw [if_neg hgt, Segmentation.addRangeNumbers_spec]
          dsimp only
          rw [ih _ _ hrest, hnums, dedupFirstAux_append, List.map_append,
            List.append_assoc]

/-- Claim C10: for a valid multi-token range spec (each token a number or a
range with bounds at least 1), `select_segments_by_range` returns exactly
the segments of `claimSelectedIndexes`: each selected 1-based index appears
once, in first-encounter order over the tokens scanned left to right, with
indexes above the segment count skipped; the index list has no
duplicates and stays within the list length. -/
theorem claim_C10 (segments : List String) (range_spec : String)
    (hlen : 2 ≤ (Segmentation.rangeSpecParts range_spec).length)
    (hvalid : Segmentation.validMultiTokens (Segmentation.rangeSpecParts range_spec) = true) :
    Segmentation.select_segments_by_range segments range_spec
      = .ok ((Segmentation.claimSelectedIndexes
          (Segmentation.tokensOfParts (Segmentation.rangeSpecParts range_spec))
          segments.length).map (fun k => segments.getD (k - 1) ""))
    ∧ (Segmentation.claimSelectedIndexes
        (Segmentation.tokensOfParts (Segmentation.rangeSpecParts range_spec))
        segments.length).Nodup
    ∧ ∀ k ∈ Segmentation.claimSelectedIndexes
        (Segmentation.tokensOfParts (Segmentation.rangeSpecParts range_spec))
        segments.length, k ≤ segments.length := by
  have hparts : Segmentation.rangeSpecParts range_spec ≠ [] := by
    intro h
    rw [h] at hlen
    simp at hlen
  have hkey : Segmentation.claimSelectedIndexes
        (Segmentation.tokensOfParts (Segmentation.rangeSpecParts range_spec))
        segments.length
      = dedupFirstAux (Segmentation.numsOfTokens
          (Segmentation.tokensOfParts (Segmentation.rangeSpecParts range_spec))
          segments.length) [] := rfl
  refine ⟨?_, ?_, ?_⟩
  · have hraw : pyStripList range_spec.data ≠ [] := by
      intro h0
      apply hparts
      show ((splitOnChar ',' ((pyStripList range_spec.data).map
        Segmentation.normalizeRangeChar)).map pyStripList).filter (· ≠ []) = []
      rw [h0]
      rfl
    have hstm : decide ((Segmentation.rangeSpecParts range_spec).length = 1) = false := by
      rw [decide_eq_false_iff_not]
      omega
    rw [Segmentation.select_segments_by_range]
    simp only [hstm]
    rw [if_neg hraw, if_neg hparts,
      Segmentation.selectLoop_spec segments _ [] [] hvalid, List.nil_append, hkey]
  · rw [hkey]
    exact (dedupFirstAux_nodup _ _).1
  · intro k hk
    rw [hkey] at hk
    have hmem := dedupFirstAux_subset _ _ k hk
    rw [Segmentation.numsOfTokens, List.mem_flatMap] at hmem
    obtain ⟨se, _, hkse⟩ := hmem
    have := List.mem_filter.mp hkse
    simpa using this.2

/-- Claim C10 witness: on segments s1..s10 with spec "2,4-6,9-20" the parts
are multi-token and valid, and the selection is [s2, s4, s5, s6, s9, s10]
with the out-of-range indexes 11..20 skipped. -/
theorem claim_C10_witness :
    2 ≤ (Segmentation.rangeSpecParts "2,4-6,9-20").length
    ∧ Segmentation.validMultiTokens (Segmentation.rangeSpecParts "2,4-6,9-20") = true
    ∧ Segmentation.select_segments_by_range
        ["s1", "s2", "s3", "s4", "s5", "s6", "s7", "s8", "s9", "s10"] "2,4-6,9-20"
      = .ok ["s2", "s4", "s5", "s6", "s9", "s10"] := by
  refine ⟨by decide, by decide, ?_⟩
  rw [(claim_C10 ["s1", "s2", "s3", "s4", "s5", "s6", "s7", "s8", "s9", "s10"]
    "2,4-6,9-20" (by decide) (by decide)).1]
  rfl

/-- Claim C4: an entry whose id sits in the no-repeat ring (passed as the
`disallow_entry_ids` blocklist, see `run_video_job` lines 2094-2124) is
returned by neither the strict nor the lenient lookup. Cache rows always
carry non-empty uuid ids (`save_scene_image_cache_entry` writes
`uuid4().hex`), which the hypothesis records. -/
theorem claim_C4 (hash : String → String) (fe : String → Bool)
    (parsedStrict parsedLenient : Option SceneCache.ParsedSelection)
    (d : SceneCache.SceneDescriptor) (entries : List SceneCache.RawEntry)
    (ring : List String) (r : SceneCache.LookupResult)
    (hids : ∀ e ∈ entries, e.id ≠ "") :
    (SceneCache.find_reusable_scene_image hash fe parsedStrict d entries ring = some r
      → r.entry_id ∉ ring)
    ∧ (SceneCache.force_llm_select_scene_image hash fe parsedLenient d entries ring = some r
      → r.entry_id ∉ ring) := by
  constructor
  · intro hfind hmem
    obtain ⟨v, hv, hid⟩ := SceneCache.find_some_mem hfind
    obtain ⟨e, he, hnb, m, hm, _, hvid, _, _⟩ := SceneCache.mem_viableEntries hv
    have hmid := SceneCache.migrate_id hm
    rw [if_neg (hids e he)] at hmid
    have heid : e.id = r.entry_id := by rw [hid, hvid, hmid]
    refine hnb ⟨hids e he, List.mem_filter.mpr ⟨?_, ?_⟩⟩
    · rw [heid]; exact hmem
    · simp [hids e he]
  · intro hforce hmem
    obtain ⟨c, hc, hid⟩ := SceneCache.force_some_mem hforce
    obtain ⟨e, he, hnb, m, hm, _, hcid, _⟩ := SceneCache.mem_forceCandidates hc
    have hmid := SceneCache.migrate_id hm
    rw [if_neg (hids e he)] at hmid
    have heid : e.id = r.entry_id := by rw [hid, hcid, hmid]
    refine hnb ⟨hids e he, List.mem_filter.mpr ⟨?_, ?_⟩⟩
    · rw [heid]; exact hmem
    · simp [hids e he]

/-- Witness for C4: a concrete strict lookup returns entry `e1`, which is
not in the ring. -/
theorem claim_C4_witness :
    (⟨"cache/img1.png", "text-exact", "exact action/location match", "e1"⟩ :
        SceneCache.LookupResult).entry_id ∉ ["zzz"] :=
  (claim_C4 Fixtures.wHash (fun _ => true) none none Fixtures.wDescTarget
    [Fixtures.wEntryGood] ["zzz"] _ (by decide)).1 (by decide)

/-- A candidate profile linked to the target only through a foreign
reference id fails `_character_match`. -/
theorem SceneCache.character_match_eq_false {tp cp : SceneCache.MatchProfile}
    (hdisj : (SceneCache.profile_reference_image_ids_p tp).all
      (fun x => !(SceneCache.profile_reference_image_ids_p cp).contains x) = true)
    (hpaths : (SceneCache.profile_reference_image_paths_p tp ≠ []
      && SceneCache.profile_reference_image_paths_p cp ≠ []
      && (SceneCache.profile_reference_image_paths_p tp).any
        (fun x => (SceneCache.profile_reference_image_paths_p cp).contains x)) = false)
    (hkeys : (SceneCache.normalize_text tp.character_key ≠ ""
      && SceneCache.normalize_text cp.character_key ≠ ""
      && SceneCache.normalize_text tp.character_key
        = SceneCache.normalize_text cp.character_key) = false) :
    SceneCache.character_match tp cp = false := by
  have hany : (SceneCache.profile_reference_image_ids_p tp).any
      (fun x => (SceneCache.profile_reference_image_ids_p cp).contains x) = false := by
    rw [List.any_eq_false]
    intro x hx
    have := List.all_eq_true.mp hdisj x hx
    simpa using this
  unfold SceneCache.character_match
  dsimp only
  rw [hany]
  simp only [Bool.and_false, Bool.false_eq_true, if_false]
  rw [hpaths]
  simp only [Bool.false_eq_true, if_false]
  exact hkeys

/-- A positive text verdict requires a character match. -/
theorem SceneCache.verdict_true_character {tp cp : SceneCache.MatchProfile}
    {dts : SceneCache.MatchDetails}
    (h : SceneCache.text_match_verdict tp cp = (true, dts)) :
    SceneCache.character_match tp cp = true := by
  by_cases hc : SceneCache.character_match tp cp = true
  · exact hc
  · rw [Bool.not_eq_true] at hc
    unfold SceneCache.text_match_verdict at h
    rw [hc] at h
    simp at h

/-- The id guard of `_llm_match_candidate` (scene_cache_service.py:934-937)
acts per pick: whatever the rest of the response says, a pick whose first
matching candidate (the `next(...)` read) has non-empty reference ids
disjoint from the target's non-empty ids yields no selection. -/
theorem SceneCache.llm_reject_disjoint_pick (p : SceneCache.ParsedSelection)
    (tp : SceneCache.MatchProfile) (pairs : List (String × SceneCache.MatchProfile))
    (strict : Bool) (pr : String × SceneCache.MatchProfile)
    (hfound : pairs.find? (fun c => c.1 = p.selected_id) = some pr)
    (htids : SceneCache.profile_reference_image_ids_p tp ≠ [])
    (hsids : SceneCache.profile_reference_image_ids_p pr.2 ≠ [])
    (hdisj : (SceneCache.profile_reference_image_ids_p tp).any
      (fun x => (SceneCache.profile_reference_image_ids_p pr.2).contains x) = false) :
    (SceneCache.llm_match_candidate (some p) tp pairs strict).1 = none := by
  unfold SceneCache.llm_match_candidate
  by_cases hps : pairs = []
  · rw [if_pos hps]
  · rw [if_neg hps]
    dsimp only
    by_cases hsr : (!p.should_reuse || p.selected_id = "") = true
    · rw [if_pos hsr]
    · rw [if_neg hsr]
      rw [hfound]
      split
      · rfl
      · rename_i hcondfalse
        refine absurd ?_ hcondfalse
        simp only [Option.map_some, ne_eq, Bool.and_eq_true, Bool.not_eq_true',
          decide_eq_true_eq]
        exact ⟨⟨htids, hsids⟩, hdisj⟩

/-- Claim C1, first half: the strict lookup never returns a cache entry
whose only link to the target's character is a foreign reference-image id
(ids disjoint, no shared path, different character key). Ids identify rows
(`id` is the table's primary key), which the uniqueness hypotheses record. -/
theorem SceneCache.strict_never_returns_foreign (hash : String → String) (fe : String → Bool)
    (parsed : Option SceneCache.ParsedSelection) (d : SceneCache.SceneDescriptor)
    (entries : List SceneCache.RawEntry) (disallow : List String)
    (c : SceneCache.RawEntry) (r : SceneCache.LookupResult)
    (hcmem : c ∈ entries)
    (hidsne : ∀ e ∈ entries, e.id ≠ "")
    (huniq : ∀ e ∈ entries, e.id = c.id → e = c)
    (htids : SceneCache.profile_reference_image_ids_p
      (SceneCache.build_match_profile hash (SceneCache.normalize_scene_descriptor d)) ≠ [])
    (hforeign : SceneCache.onlyForeignIds hash
      (SceneCache.build_match_profile hash (SceneCache.normalize_scene_descriptor d)) c = true)
    (hfind : SceneCache.find_reusable_scene_image hash fe parsed d entries disallow = some r) :
    r.entry_id ≠ c.id := by
  intro heq
  obtain ⟨v, hv, hid⟩ := SceneCache.find_some_mem hfind
  obtain ⟨e, he, hnb, m, hm, _, hvid, _, hverd⟩ := SceneCache.mem_viableEntries hv
  have hmid := SceneCache.migrate_id hm
  rw [if_neg (hidsne e he)] at hmid
  have heid : e.id = c.id := by rw [← hmid, ← hvid, ← hid, heq]
  have hec : e = c := huniq e he heid
  subst hec
  rw [SceneCache.onlyForeignIds, hm] at hforeign
  dsimp only at hforeign
  simp only [Bool.and_eq_true] at hforeign
  obtain ⟨⟨⟨_, hdisj⟩, hpaths⟩, hkeys⟩ := hforeign
  rw [Bool.not_eq_true'] at hpaths hkeys
  have hfalse := SceneCache.character_match_eq_false hdisj hpaths hkeys
  have htrue := SceneCache.verdict_true_character hverd
  rw [htrue] at hfalse
  cases hfalse

/-- Claim C1, second half: over any pool (mixed pools included), the
lenient lookup returns nothing whenever the selector's pick resolves to a
short-listed candidate whose reference-image ids are non-empty and
disjoint from the target's non-empty ids. -/
theorem SceneCache.lenient_rejects_disjoint_pick (hash : String → String)
    (fe : String → Bool) (p : SceneCache.ParsedSelection)
    (d : SceneCache.SceneDescriptor) (entries : List SceneCache.RawEntry)
    (disallow : List String) (pr : String × SceneCache.MatchProfile)
    (hfound : ((SceneCache.forceTop hash fe
        (SceneCache.build_match_profile hash (SceneCache.normalize_scene_descriptor d))
        entries (SceneCache.blockedIds disallow)).map
        (fun c => (c.id, c.profile))).find? (fun c => c.1 = p.selected_id) = some pr)
    (htids : SceneCache.profile_reference_image_ids_p
      (SceneCache.build_match_profile hash (SceneCache.normalize_scene_descriptor d)) ≠ [])
    (hsids : SceneCache.profile_reference_image_ids_p pr.2 ≠ [])
    (hdisj : (SceneCache.profile_reference_image_ids_p
        (SceneCache.build_match_profile hash (SceneCache.normalize_scene_descriptor d))).any
      (fun x => (SceneCache.profile_reference_image_ids_p pr.2).contains x) = false) :
    SceneCache.force_llm_select_scene_image hash fe (some p) d entries disallow = none := by
  unfold SceneCache.force_llm_select_scene_image
  dsimp only
  by_cases hcand : SceneCache.forceCandidates hash fe
      (SceneCache.build_match_profile hash (SceneCache.normalize_scene_descriptor d))
      entries (SceneCache.blockedIds disallow) = []
  · rw [if_pos hcand]
  · rw [if_neg hcand]
    rw [SceneCache.llm_reject_disjoint_pick p _ _ false pr hfound htids hsids hdisj]

/-- Claim C1: character isolation of the scene cache. First conjunct — the
strict lookup can only return a row that passes `_character_match`, so it
never returns a candidate whose only link is a foreign reference-image id;
by `strict_never_returns_foreign` applied inside. Second conjunct — over
any pool (mixed pools included), the lenient lookup rejects the selector's
pick whenever the pick's resolved candidate has reference-image ids
non-empty and disjoint from the target's non-empty ids, by
`lenient_rejects_disjoint_pick`. -/
theorem claim_C1 (hash : String → String) (fe : String → Bool)
    (parsedStrict parsedLenient : Option SceneCache.ParsedSelection)
    (d : SceneCache.SceneDescriptor) (entries : List SceneCache.RawEntry)
    (disallow : List String) (c : SceneCache.RawEntry) (r : SceneCache.LookupResult)
    (hcmem : c ∈ entries)
    (hidsne : ∀ e ∈ entries, e.id ≠ "")
    (huniq : ∀ e ∈ entries, e.id = c.id → e = c)
    (htids : SceneCache.profile_reference_image_ids_p
      (SceneCache.build_match_profile hash (SceneCache.normalize_scene_descriptor d)) ≠ [])
    (hforeign : SceneCache.onlyForeignIds hash
      (SceneCache.build_match_profile hash (SceneCache.normalize_scene_descriptor d)) c = true) :
    (SceneCache.find_reusable_scene_image hash fe parsedStrict d entries disallow = some r
      → r.entry_id ≠ c.id)
    ∧ (∀ (p : SceneCache.ParsedSelection) (pr : String × SceneCache.MatchProfile),
      parsedLenient = some p →
      ((SceneCache.forceTop hash fe
          (SceneCache.build_match_profile hash (SceneCache.normalize_scene_descriptor d))
          entries (SceneCache.blockedIds disallow)).map
          (fun x => (x.id, x.profile))).find? (fun x => x.1 = p.selected_id) = some pr →
      SceneCache.profile_reference_image_ids_p pr.2 ≠ [] →
      (SceneCache.profile_reference_image_ids_p
          (SceneCache.build_match_profile hash
            (SceneCache.normalize_scene_descriptor d))).any
        (fun x => (SceneCache.profile_reference_image_ids_p pr.2).contains x) = false →
      SceneCache.force_llm_select_scene_image hash fe parsedLenient d entries disallow
        = none) :=
  ⟨fun hfind => SceneCache.strict_never_returns_foreign hash fe parsedStrict d entries
      disallow c r hcmem hidsne huniq htids hforeign hfind,
   fun p pr hp hfound hsids hdisj => by
    rw [hp]
    exact SceneCache.lenient_rejects_disjoint_pick hash fe p d entries disallow pr
      hfound htids hsids hdisj⟩

/-- Witness for C1: over the mixed pool `[e1 (same character), e2 (foreign
id b2)]`, the strict lookup returns `e1`, not the foreign row `e2`; and
the lenient lookup over the same mixed pool returns nothing when the
selector picks the foreign row `e2` with every flag set. -/
theorem claim_C1_witness :
    ((⟨"cache/img1.png", "text-exact", "exact action/location match", "e1"⟩ :
        SceneCache.LookupResult).entry_id ≠ "e2")
    ∧ SceneCache.force_llm_select_scene_image Fixtures.wHash (fun _ => true)
        (some ⟨"e2", true, true, true, true, true, ""⟩) Fixtures.wDescTarget
        [Fixtures.wEntryGood, Fixtures.wEntryOther] [] = none :=
  ⟨(claim_C1 Fixtures.wHash (fun _ => true) none
      (some ⟨"e2", true, true, true, true, true, ""⟩) Fixtures.wDescTarget
      [Fixtures.wEntryGood, Fixtures.wEntryOther] [] Fixtures.wEntryOther _
      (by decide) (by decide) (by decide) (by decide) (by decide)).1 (by decide),
   (claim_C1 Fixtures.wHash (fun _ => true) none
      (some ⟨"e2", true, true, true, true, true, ""⟩) Fixtures.wDescTarget
      [Fixtures.wEntryGood, Fixtures.wEntryOther] [] Fixtures.wEntryOther ⟨"x", "", "", ""⟩
      (by decide) (by decide) (by decide) (by decide) (by decide)).2
      ⟨"e2", true, true, true, true, true, ""⟩ Fixtures.wPickPair rfl (by rfl)
      (by decide) (by decide)⟩

/-- Witness for C2: with an empty cache, no reference file, and a failed
generation, every fallback fails and the resolver raises the generation
error. -/
theorem claim_C2_witness :
    VideoService.resolve_segment_image (fun s => s) (fun _ => false) none none false
      SceneCache.emptyDescriptor [] [] (.error "generation failed") "Hero" "" false 0 0 0
      "out.png" ""
      = .error "image generation failed and no fallback scene/reference image available" :=
  ((claim_C2 (fun s => s) (fun _ => false) none none false SceneCache.emptyDescriptor [] []
    "generation failed" "Hero" "" false 0 0 0 "out.png" "" _ rfl
    (Or.inl rfl)).2.2.2.2.2.1).mpr ⟨by decide, by decide, by decide, by decide⟩

/-- Pointwise effect of the repeated `characters[index].flag = ...`
mutations over an index list, for an idempotent field update. -/
theorem foldl_modify_getElem? (f : α → α) (hf : ∀ a, f (f a) = f a) :
    ∀ (idxs : List Nat) (l : List α) (j : Nat),
    (idxs.foldl (fun acc i => List.modify f i acc) l)[j]?
      = if j ∈ idxs then l[j]?.map f else l[j]? := by
  intro idxs
  induction idxs with
  | nil => intro l j; simp
  | cons i idxs ih =>
    intro l j
    rw [List.foldl_cons, ih]
    by_cases hj : j ∈ idxs
    · rw [if_pos hj, if_pos (List.mem_cons_of_mem i hj), List.getElem?_modify]
      cases h : l[j]? with
      | none => rfl
      | some a =>
        by_cases hij : i = j
        · simp [hij, hf]
        · simp [hij]
    · rw [if_neg hj, List.getElem?_modify]
      by_cases hij : i = j
      · rw [if_pos (show j ∈ i :: idxs from hij ▸ List.mem_cons_self i idxs)]
        cases h : l[j]? <;> simp [hij]
      · have hnot : j ∉ i :: idxs := by
          intro hmem
          rcases List.mem_cons.mp hmem with h' | h'
          · exact hij h'.symm
          · exact hj h'
        rw [if_neg hnot]
        cases h : l[j]? <;> simp [hij]

namespace LLMService

/-- Pointwise description of the duplicate-main clearing pass. -/
theorem getElem?_clearMainAt (cs : List CharacterSuggestion) (idxs : List Nat) (j : Nat) :
    (clearMainAt cs idxs)[j]?
      = if j ∈ idxs then cs[j]?.map (fun c => { c with is_main_character := false })
        else cs[j]? :=
  foldl_modify_getElem? (fun (c : CharacterSuggestion) => { c with is_main_character := false })
    (fun _ => rfl) idxs cs j

/-- Pointwise description of the duplicate-self clearing pass. -/
theorem getElem?_clearSelfAt (cs : List CharacterSuggestion) (idxs : List Nat) (j : Nat) :
    (clearSelfAt cs idxs)[j]?
      = if j ∈ idxs then cs[j]?.map (fun c => { c with is_story_self := false })
        else cs[j]? :=
  foldl_modify_getElem? (fun (c : CharacterSuggestion) => { c with is_story_self := false })
    (fun _ => rfl) idxs cs j

/-- Pointwise description of `characters[i].is_main_character = True`. -/
theorem getElem?_setMainAt (cs : List CharacterSuggestion) (i j : Nat) :
    (setMainAt cs i)[j]?
      = if i = j then cs[j]?.map (fun c => { c with is_main_character := true })
        else cs[j]? := by
  rw [setMainAt, List.getElem?_modify]
  cases h : cs[j]? <;> by_cases hij : i = j <;> simp [hij]

/-- Pointwise description of `characters[i].is_story_self = True`. -/
theorem getElem?_setSelfAt (cs : List CharacterSuggestion) (i j : Nat) :
    (setSelfAt cs i)[j]?
      = if i = j then cs[j]?.map (fun c => { c with is_story_self := true })
        else cs[j]? := by
  rw [setSelfAt, List.getElem?_modify]
  cases h : cs[j]? <;> by_cases hij : i = j <;> simp [hij]

/-- Index membership in `main_indexes`. -/
theorem mem_mainIndexes {cs : List CharacterSuggestion} {j : Nat} :
    j ∈ mainIndexes cs ↔ ∃ c, cs[j]? = some c ∧ c.is_main_character = true := by
  rw [mainIndexes]
  constructor
  · intro h
    rw [List.mem_map] at h
    obtain ⟨p, hp, rfl⟩ := h
    rw [List.mem_filter] at hp
    obtain ⟨hpe, hpm⟩ := hp
    rw [List.mem_enum_iff_getElem?] at hpe
    exact ⟨p.2, hpe, hpm⟩
  · intro h
    obtain ⟨c, hc, hm⟩ := h
    rw [List.mem_map]
    refine ⟨(j, c), ?_, rfl⟩
    rw [List.mem_filter]
    exact ⟨List.mem_enum_iff_getElem?.mpr hc, hm⟩

/-- Index membership in `self_indexes`. -/
theorem mem_selfIndexes {cs : List CharacterSuggestion} {j : Nat} :
    j ∈ selfIndexes cs ↔ ∃ c, cs[j]? = some c ∧ c.is_story_self = true := by
  rw [selfIndexes]
  constructor
  · intro h
    rw [List.mem_map] at h
    obtain ⟨p, hp, rfl⟩ := h
    rw [List.mem_filter] at hp
    obtain ⟨hpe, hpm⟩ := hp
    rw [List.mem_enum_iff_getElem?] at hpe
    exact ⟨p.2, hpe, hpm⟩
  · intro h
    obtain ⟨c, hc, hm⟩ := h
    rw [List.mem_map]
    refine ⟨(j, c), ?_, rfl⟩
    rw [List.mem_filter]
    exact ⟨List.mem_enum_iff_getElem?.mpr hc, hm⟩

/-- The captured index lists never repeat an index. -/
theorem nodup_enum_filter_fst (cs : List CharacterSuggestion) (p : Nat × CharacterSuggestion → Bool) :
    ((cs.enum.filter p).map Prod.fst).Nodup := by
  have hsub : ((cs.enum.filter p).map Prod.fst).Sublist (cs.enum.map Prod.fst) :=
    List.Sublist.map Prod.fst (List.filter_sublist _)
  rw [List.enum_map_fst] at hsub
  exact hsub.nodup (List.nodup_range _)

/-- `mainIndexes` has no duplicates. -/
theorem nodup_mainIndexes (cs : List CharacterSuggestion) : (mainIndexes cs).Nodup :=
  nodup_enum_filter_fst cs _

/-- `selfIndexes` has no duplicates. -/
theorem nodup_selfIndexes (cs : List CharacterSuggestion) : (selfIndexes cs).Nodup :=
  nodup_enum_filter_fst cs _

/-- The scan of `max(range(len(l)), key=f)` stays below the index bound. -/
theorem firstArgmaxAux_lt (f : α → Int) :
    ∀ (rest : List α) (best : Nat) (bestVal : Int) (i : Nat),
    best < i → firstArgmaxAux f best bestVal i rest < i + rest.length := by
  intro rest
  induction rest with
  | nil =>
    intro best bestVal i h
    simpa [firstArgmaxAux] using h
  | cons c rest ih =>
    intro best bestVal i h
    rw [firstArgmaxAux, List.length_cons]
    by_cases hc : f c > bestVal
    · rw [if_pos hc]
      have := ih i (f c) (i + 1) (Nat.lt_succ_self i)
      omega
    · rw [if_neg hc]
      have := ih best bestVal (i + 1) (Nat.lt_succ_of_lt h)
      omega

/-- `max(range(len(l)), key=f)` is a valid index of a nonempty list. -/
theorem firstArgmax_lt_length (f : α → Int) (l : List α) (h : l ≠ []) :
    firstArgmax f l < l.length := by
  match l, h with
  | c :: rest, _ =>
    rw [firstArgmax, List.length_cons]
    have := firstArgmaxAux_lt f rest 0 (f c) 1 Nat.zero_lt_one
    omega

/-- Repeated in-place mutation keeps the list length. -/
theorem foldl_modify_length (f : α → α) :
    ∀ (idxs : List Nat) (l : List α),
    (idxs.foldl (fun acc i => List.modify f i acc) l).length = l.length := by
  intro idxs
  induction idxs with
  | nil => intro l; rfl
  | cons i idxs ih =>
    intro l
    rw [List.foldl_cons, ih, List.length_modify]

/-- The duplicate-self pass keeps the first pass list length. -/
theorem length_nifCs2 (cs : List CharacterSuggestion) :
    (nifCs2 cs).length = cs.length := by
  have h1 : (nifCs1 cs).length = cs.length := by
    rw [nifCs1]
    by_cases hM : (mainIndexes cs).length > 1
    · rw [if_pos hM, clearMainAt, foldl_modify_length]
    · rw [if_neg hM]
  rw [nifCs2]
  by_cases hS : (selfIndexes cs).length > 1
  · rw [if_pos hS, clearSelfAt, foldl_modify_length, h1]
  · rw [if_neg hS, h1]

/-- The promote pass keeps the list length. -/
theorem length_nifCs3 (cs : List CharacterSuggestion) :
    (nifCs3 cs).length = cs.length := by
  rw [nifCs3]
  by_cases hm : nifMains1 cs = []
  · rw [if_pos hm, setMainAt, List.length_modify, length_nifCs2]
  · rw [if_neg hm, length_nifCs2]

/-- `_normalize_identity_flags` keeps the list length. -/
theorem length_normalize_identity_flags (cs : List CharacterSuggestion) (src : String) :
    (normalize_identity_flags cs src).length = cs.length := by
  rw [normalize_identity_flags]
  by_cases h : cs = []
  · rw [if_pos h]
  · rw [if_neg h]
    by_cases hc : ((firstPersonTokens.any (fun tok => pyContains src tok))
        && decide (nifSelfs1 cs = [])) = true
    · rw [if_pos hc, setSelfAt, List.length_modify, length_nifCs3]
    · rw [if_neg hc, length_nifCs3]

/-- Self-flag mutations do not touch the main flag. -/
theorem main_proj_clearSelfAt (l : List CharacterSuggestion) (idxs : List Nat) (j : Nat) :
    ((clearSelfAt l idxs)[j]?).map (·.is_main_character)
      = (l[j]?).map (·.is_main_character) := by
  rw [getElem?_clearSelfAt]
  by_cases hj : j ∈ idxs
  · rw [if_pos hj]; cases l[j]? <;> simp
  · rw [if_neg hj]

/-- Marking story-self does not touch the main flag. -/
theorem main_proj_setSelfAt (l : List CharacterSuggestion) (i j : Nat) :
    ((setSelfAt l i)[j]?).map (·.is_main_character)
      = (l[j]?).map (·.is_main_character) := by
  rw [getElem?_setSelfAt]
  by_cases hj : i = j
  · rw [if_pos hj]; cases l[j]? <;> simp
  · rw [if_neg hj]

/-- Main-flag mutations do not touch the story-self flag. -/
theorem self_proj_clearMainAt (l : List CharacterSuggestion) (idxs : List Nat) (j : Nat) :
    ((clearMainAt l idxs)[j]?).map (·.is_story_self)
      = (l[j]?).map (·.is_story_self) := by
  rw [getElem?_clearMainAt]
  by_cases hj : j ∈ idxs
  · rw [if_pos hj]; cases l[j]? <;> simp
  · rw [if_neg hj]

/-- Marking the main character does not touch the story-self flag. -/
theorem self_proj_setMainAt (l : List CharacterSuggestion) (i j : Nat) :
    ((setMainAt l i)[j]?).map (·.is_story_self)
      = (l[j]?).map (·.is_story_self) := by
  rw [getElem?_setMainAt]
  by_cases hj : i = j
  · rw [if_pos hj]; cases l[j]? <;> simp
  · rw [if_neg hj]

/-- Main flags are unchanged by the duplicate-self pass. -/
theorem main_proj_nifCs2 (cs : List CharacterSuggestion) (j : Nat) :
    ((nifCs2 cs)[j]?).map (·.is_main_character)
      = ((nifCs1 cs)[j]?).map (·.is_main_character) := by
  rw [nifCs2]
  by_cases hS : (selfIndexes cs).length > 1
  · rw [if_pos hS, main_proj_clearSelfAt]
  · rw [if_neg hS]

/-- Main flags of the final list equal those after the promote pass. -/
theorem main_proj_final (cs : List CharacterSuggestion) (src : String) (h : cs ≠ [])
    (j : Nat) :
    ((normalize_identity_flags cs src)[j]?).map (·.is_main_character)
      = ((nifCs3 cs)[j]?).map (·.is_main_character) := by
  rw [normalize_identity_flags, if_neg h]
  by_cases hc : ((firstPersonTokens.any (fun tok => pyContains src tok))
      && decide (nifSelfs1 cs = [])) = true
  · rw [if_pos hc, main_proj_setSelfAt]
  · rw [if_neg hc]

/-- Story-self flags are unchanged by the duplicate-main pass. -/
theorem self_proj_nifCs1 (cs : List CharacterSuggestion) (j : Nat) :
    ((nifCs1 cs)[j]?).map (·.is_story_self) = (cs[j]?).map (·.is_story_self) := by
  rw [nifCs1]
  by_cases hM : (mainIndexes cs).length > 1
  · rw [if_pos hM, self_proj_clearMainAt]
  · rw [if_neg hM]

/-- Story-self flags are unchanged by the promote pass. -/
theorem self_proj_nifCs3 (cs : List CharacterSuggestion) (j : Nat) :
    ((nifCs3 cs)[j]?).map (·.is_story_self)
      = ((nifCs2 cs)[j]?).map (·.is_story_self) := by
  rw [nifCs3]
  by_cases hm : nifMains1 cs = []
  · rw [if_pos hm, self_proj_setMainAt]
  · rw [if_neg hm]

end LLMService

/-- A list whose predicate can hold at one index only keeps at most one
element after filtering. -/
theorem filter_length_le_one_of_unique (p : α → Bool) :
    ∀ (l : List α) (k : Nat),
    (∀ j c, l[j]? = some c → p c = true → j = k) → (l.filter p).length ≤ 1 := by
  intro l
  induction l with
  | nil => intro k _; simp
  | cons x rest ih =>
    intro k h
    rw [List.filter_cons]
    by_cases hp : p x = true
    · rw [if_pos hp]
      have hk : k = 0 := (h 0 x (by simp) hp).symm
      have hrest : rest.filter p = [] := by
        rw [List.filter_eq_nil_iff]
        intro c hc hpc
        obtain ⟨n, hn⟩ := List.mem_iff_getElem?.mp hc
        have := h (n + 1) c (by simpa using hn) hpc
        omega
      rw [hrest]
      simp
    · rw [if_neg hp]
      match k with
      | 0 =>
        have hrest : rest.filter p = [] := by
          rw [List.filter_eq_nil_iff]
          intro c hc hpc
          obtain ⟨n, hn⟩ := List.mem_iff_getElem?.mp hc
          have := h (n + 1) c (by simpa using hn) hpc
          omega
        rw [hrest]
        simp
      | k + 1 =>
        refine ih k ?_
        intro j c hj hpc
        have := h (j + 1) c (by simpa using hj) hpc
        omega

/-- A list with a provable predicate hit keeps at least one element after
filtering. -/
theorem filter_length_pos_of_hit (p : α → Bool) (l : List α) (k : Nat) (c : α)
    (hk : l[k]? = some c) (hp : p c = true) : 1 ≤ (l.filter p).length := by
  have hc : c ∈ l := List.mem_iff_getElem?.mpr ⟨k, hk⟩
  have hmem : c ∈ l.filter p := List.mem_filter.mpr ⟨hc, hp⟩
  exact List.length_pos.mpr (List.ne_nil_of_mem hmem)

/-- After `_normalize_identity_flags` the main flag holds at exactly one
position: the first previously marked index, or the promoted
highest-importance index when none was marked. -/
theorem LLMService.main_flag_iff (cs : List CharacterSuggestion) (src : String)
    (h : cs ≠ []) :
    ∃ k, k < cs.length ∧ ∀ j c, (LLMService.normalize_identity_flags cs src)[j]? = some c →
      (c.is_main_character = true ↔ j = k) := by
  by_cases hM : (LLMService.mainIndexes cs).length > 1
  · obtain ⟨m0, mtail, hm⟩ := List.exists_cons_of_ne_nil
      (show LLMService.mainIndexes cs ≠ [] by intro h0; rw [h0] at hM; simp at hM)
    have hnd := LLMService.nodup_mainIndexes cs
    rw [hm, List.nodup_cons] at hnd
    have hm0mem : m0 ∈ LLMService.mainIndexes cs := by
      rw [hm]; exact List.mem_cons_self _ _
    obtain ⟨c0, hc0, hc0m⟩ := LLMService.mem_mainIndexes.mp hm0mem
    have hm0lt : m0 < cs.length := by
      by_contra hge
      rw [List.getElem?_eq_none (by omega)] at hc0
      cases hc0
    have hmains1 : LLMService.nifMains1 cs ≠ [] := by
      rw [LLMService.nifMains1, if_pos hM]
      exact List.cons_ne_nil _ _
    have hcs3 : LLMService.nifCs3 cs = LLMService.nifCs2 cs := by
      rw [LLMService.nifCs3, if_neg hmains1]
    have hcs1 : LLMService.nifCs1 cs = LLMService.clearMainAt cs mtail := by
      rw [LLMService.nifCs1, if_pos hM, hm, List.tail_cons]
    refine ⟨m0, hm0lt, ?_⟩
    intro j c hjc
    have hproj := LLMService.main_proj_final cs src h j
    rw [hjc, hcs3, LLMService.main_proj_nifCs2, hcs1,
      LLMService.getElem?_clearMainAt] at hproj
    by_cases hjt : j ∈ mtail
    · rw [if_pos hjt] at hproj
      constructor
      · intro hmain
        cases hcj : cs[j]? with
        | none => rw [hcj] at hproj; simp at hproj
        | some a => rw [hcj] at hproj; simp [hmain] at hproj
      · intro hj0
        exact absurd (hj0 ▸ hjt) hnd.1
    · rw [if_neg hjt] at hproj
      constructor
      · intro hmain
        cases hcj : cs[j]? with
        | none => rw [hcj] at hproj; simp at hproj
        | some a =>
          rw [hcj] at hproj
          simp only [Option.map_some'] at hproj
          have ham : a.is_main_character = true := by
            injection hproj with h'
            rw [← h', hmain]
          have hjm : j ∈ LLMService.mainIndexes cs :=
            LLMService.mem_mainIndexes.mpr ⟨a, hcj, ham⟩
          rw [hm] at hjm
          rcases List.mem_cons.mp hjm with h' | h'
          · exact h'
          · exact absurd h' hjt
      · intro hj0
        subst hj0
        rw [hc0] at hproj
        simp only [Option.map_some'] at hproj
        injection hproj with h'
        rw [h', hc0m]
  · by_cases hM0 : LLMService.mainIndexes cs = []
    · have hmains1 : LLMService.nifMains1 cs = [] := by
        rw [LLMService.nifMains1, if_neg hM, hM0]
      have hcs3 : LLMService.nifCs3 cs
          = LLMService.setMainAt (LLMService.nifCs2 cs) (LLMService.nifBest cs) := by
        rw [LLMService.nifCs3, if_pos hmains1]
      have hcs1 : LLMService.nifCs1 cs = cs := by
        rw [LLMService.nifCs1, if_neg hM]
      have hne2 : LLMService.nifCs2 cs ≠ [] := by
        intro h0
        apply h
        have hl := LLMService.length_nifCs2 cs
        rw [h0] at hl
        exact List.length_eq_zero.mp hl.symm
      have hblt : LLMService.nifBest cs < cs.length := by
        rw [← LLMService.length_nifCs2 cs]
        exact LLMService.firstArgmax_lt_length _ _ hne2
      refine ⟨LLMService.nifBest cs, hblt, ?_⟩
      intro j c hjc
      have hproj := LLMService.main_proj_final cs src h j
      rw [hjc, hcs3, LLMService.getElem?_setMainAt] at hproj
      by_cases hbj : LLMService.nifBest cs = j
      · rw [if_pos hbj] at hproj
        have hjlt : j < (LLMService.nifCs2 cs).length := by
          rw [LLMService.length_nifCs2]
          omega
        rw [List.getElem?_eq_getElem hjlt] at hproj
        simp only [Option.map_some'] at hproj
        injection hproj with h'
        constructor
        · intro _
          exact hbj.symm
        · intro _
          rw [h']
      · rw [if_neg hbj, LLMService.main_proj_nifCs2, hcs1] at hproj
        constructor
        · intro hmain
          cases hcj : cs[j]? with
          | none => rw [hcj] at hproj; simp at hproj
          | some a =>
            rw [hcj] at hproj
            simp only [Option.map_some'] at hproj
            have ham : a.is_main_character = true := by
              injection hproj with h'
              rw [← h', hmain]
            have hjm : j ∈ LLMService.mainIndexes cs :=
              LLMService.mem_mainIndexes.mpr ⟨a, hcj, ham⟩
            rw [hM0] at hjm
            cases hjm
        · intro hj0
          exact absurd hj0.symm hbj
    · obtain ⟨m0, mtail, hm⟩ := List.exists_cons_of_ne_nil hM0
      have htail : mtail = [] := by
        have hl := congrArg List.length hm
        rw [List.length_cons] at hl
        have : mtail.length = 0 := by omega
        exact List.length_eq_zero.mp this
      subst htail
      have hm0mem : m0 ∈ LLMService.mainIndexes cs := by
        rw [hm]; exact List.mem_cons_self _ _
      obtain ⟨c0, hc0, hc0m⟩ := LLMService.mem_mainIndexes.mp hm0mem
      have hm0lt : m0 < cs.length := by
        by_contra hge
        rw [List.getElem?_eq_none (by omega)] at hc0
        cases hc0
      have hmains1 : LLMService.nifMains1 cs ≠ [] := by
        rw [LLMService.nifMains1, if_neg hM, hm]
        exact List.cons_ne_nil _ _
      have hcs3 : LLMService.nifCs3 cs = LLMService.nifCs2 cs := by
        rw [LLMService.nifCs3, if_neg hmains1]
      have hcs1 : LLMService.nifCs1 cs = cs := by
        rw [LLMService.nifCs1, if_neg hM]
      refine ⟨m0, hm0lt, ?_⟩
      intro j c hjc
      have hproj := LLMService.main_proj_final cs src h j
      rw [hjc, hcs3, LLMService.main_proj_nifCs2, hcs1] at hproj
      constructor
      · intro hmain
        cases hcj : cs[j]? with
        | none => rw [hcj] at hproj; simp at hproj
        | some a =>
          rw [hcj] at hproj
          simp only [Option.map_some'] at hproj
          have ham : a.is_main_character = true := by
            injection hproj with h'
            rw [← h', hmain]
          have hjm : j ∈ LLMService.mainIndexes cs :=
            LLMService.mem_mainIndexes.mpr ⟨a, hcj, ham⟩
          rw [hm] at hjm
          rcases List.mem_cons.mp hjm with h' | h'
          · exact h'
          · cases h'
      · intro hj0
        subst hj0
        rw [hc0] at hproj
        simp only [Option.map_some'] at hproj
        injection hproj with h'
        rw [h', hc0m]

/-- After `_normalize_identity_flags` the story-self flag holds at no more
than one position. -/
theorem LLMService.self_flag_at_most (cs : List CharacterSuggestion) (src : String)
    (h : cs ≠ []) :
    ∃ k, ∀ (j : Nat) (c : CharacterSuggestion),
      (LLMService.normalize_identity_flags cs src)[j]? = some c →
      c.is_story_self = true → j = k := by
  by_cases hc : ((LLMService.firstPersonTokens.any (fun tok => pyContains src tok))
      && decide (LLMService.nifSelfs1 cs = [])) = true
  · have hfeq : LLMService.normalize_identity_flags cs src
        = LLMService.setSelfAt (LLMService.nifCs3 cs)
            ((LLMService.nifMains2 cs).headD 0) := by
      rw [LLMService.normalize_identity_flags, if_neg h, if_pos hc]
    have hself0 : LLMService.selfIndexes cs = [] := by
      rw [Bool.and_eq_true] at hc
      have hs1 := of_decide_eq_true hc.2
      rw [LLMService.nifSelfs1] at hs1
      by_cases hS : (LLMService.selfIndexes cs).length > 1
      · rw [if_pos hS] at hs1
        cases hs1
      · rw [if_neg hS] at hs1
        exact hs1
    have hSn : ¬(LLMService.selfIndexes cs).length > 1 := by
      rw [hself0]
      simp
    have hcs2 : LLMService.nifCs2 cs = LLMService.nifCs1 cs := by
      rw [LLMService.nifCs2, if_neg hSn]
    refine ⟨(LLMService.nifMains2 cs).headD 0, ?_⟩
    intro j c hjc hself
    by_contra hne
    rw [hfeq, LLMService.getElem?_setSelfAt,
      if_neg (fun h' => hne h'.symm)] at hjc
    have hproj : ((LLMService.nifCs3 cs)[j]?).map (·.is_story_self)
        = (cs[j]?).map (·.is_story_self) := by
      rw [LLMService.self_proj_nifCs3, hcs2, LLMService.self_proj_nifCs1]
    rw [hjc] at hproj
    simp only [Option.map_some'] at hproj
    cases hcj : cs[j]? with
    | none => rw [hcj] at hproj; cases hproj
    | some a =>
      rw [hcj] at hproj
      simp only [Option.map_some'] at hproj
      have has : a.is_story_self = true := by
        injection hproj with h'
        rw [← h', hself]
      have hjm : j ∈ LLMService.selfIndexes cs :=
        LLMService.mem_selfIndexes.mpr ⟨a, hcj, has⟩
      rw [hself0] at hjm
      cases hjm
  · have hfeq : LLMService.normalize_identity_flags cs src = LLMService.nifCs3 cs := by
      rw [LLMService.normalize_identity_flags, if_neg h, if_neg hc]
    by_cases hS : (LLMService.selfIndexes cs).length > 1
    · obtain ⟨s0, stail, hs⟩ := List.exists_cons_of_ne_nil
        (show LLMService.selfIndexes cs ≠ [] by intro h0; rw [h0] at hS; simp at hS)
      have hnd := LLMService.nodup_selfIndexes cs
      rw [hs, List.nodup_cons] at hnd
      have hcs2 : LLMService.nifCs2 cs
          = LLMService.clearSelfAt (LLMService.nifCs1 cs) stail := by
        rw [LLMService.nifCs2, if_pos hS, hs, List.tail_cons]
      refine ⟨s0, ?_⟩
      intro j c hjc hself
      rw [hfeq] at hjc
      have hproj := LLMService.self_proj_nifCs3 cs j
      rw [hjc, hcs2, LLMService.getElem?_clearSelfAt] at hproj
      by_cases hjt : j ∈ stail
      · rw [if_pos hjt] at hproj
        cases hcj : (LLMService.nifCs1 cs)[j]? with
        | none => rw [hcj] at hproj; simp at hproj
        | some a => rw [hcj] at hproj; simp [hself] at hproj
      · rw [if_neg hjt] at hproj
        have hproj2 : ((LLMService.nifCs1 cs)[j]?).map (·.is_story_self)
            = (cs[j]?).map (·.is_story_self) := LLMService.self_proj_nifCs1 cs j
        rw [hproj2] at hproj
        cases hcj : cs[j]? with
        | none => rw [hcj] at hproj; simp at hproj
        | some a =>
          rw [hcj] at hproj
          simp only [Option.map_some'] at hproj
          have has : a.is_story_self = true := by
            injection hproj with h'
            rw [← h', hself]
          have hjm : j ∈ LLMService.selfIndexes cs :=
            LLMService.mem_selfIndexes.mpr ⟨a, hcj, has⟩
          rw [hs] at hjm
          rcases List.mem_cons.mp hjm with h' | h'
          · exact h'
          · exact absurd h' hjt
    · have hcs2 : LLMService.nifCs2 cs = LLMService.nifCs1 cs := by
        rw [LLMService.nifCs2, if_neg hS]
      refine ⟨(LLMService.selfIndexes cs).headD 0, ?_⟩
      intro j c hjc hself
      rw [hfeq] at hjc
      have hproj := LLMService.self_proj_nifCs3 cs j
      rw [hjc, hcs2, LLMService.self_proj_nifCs1] at hproj
      cases hcj : cs[j]? with
      | none => rw [hcj] at hproj; simp at hproj
      | some a =>
        rw [hcj] at hproj
        simp only [Option.map_some'] at hproj
        have has : a.is_story_self = true := by
          injection hproj with h'
          rw [← h', hself]
        have hjm : j ∈ LLMService.selfIndexes cs :=
          LLMService.mem_selfIndexes.mpr ⟨a, hcj, has⟩
        obtain ⟨s0, stail, hs⟩ := List.exists_cons_of_ne_nil (List.ne_nil_of_mem hjm)
        have htail : stail = [] := by
          have hl := congrArg List.length hs
          rw [List.length_cons] at hl
          have : stail.length = 0 := by omega
          exact List.length_eq_zero.mp this
        subst htail
        rw [hs] at hjm
        rw [hs]
        rcases List.mem_cons.mp hjm with h' | h'
        · simpa using h'
        · cases h'

/-- Claim C7: for every non-empty character list, after
`_normalize_identity_flags` (the post-processing step of character
analysis) exactly one character has `is_main_character = true` and at most
one has `is_story_self = true`. -/
theorem claim_C7 (cs : List CharacterSuggestion) (src : String) (h : cs ≠ []) :
    ((LLMService.normalize_identity_flags cs src).filter
      (·.is_main_character)).length = 1
    ∧ ((LLMService.normalize_identity_flags cs src).filter
      (·.is_story_self)).length ≤ 1 := by
  constructor
  · obtain ⟨k, hk, hiff⟩ := LLMService.main_flag_iff cs src h
    have hklt : k < (LLMService.normalize_identity_flags cs src).length := by
      rw [LLMService.length_normalize_identity_flags]
      exact hk
    have hsome := List.getElem?_eq_getElem hklt
    have hmain : (LLMService.normalize_identity_flags cs src)[k].is_main_character
        = true := (hiff k _ hsome).mpr rfl
    have hge := filter_length_pos_of_hit
      (fun c : CharacterSuggestion => c.is_main_character) _ k _ hsome hmain
    have hle := filter_length_le_one_of_unique
      (fun c : CharacterSuggestion => c.is_main_character) _ k
      (fun j c hj hp => (hiff j c hj).mp hp)
    omega
  · obtain ⟨k, hk⟩ := LLMService.self_flag_at_most cs src h
    exact filter_length_le_one_of_unique
      (fun c : CharacterSuggestion => c.is_story_self) _ k hk

/-- Claim C7 witness: two characters, none marked, first-person source
text: exactly one main character and at most one story-self after
normalization. -/
theorem claim_C7_witness :
    (([⟨"甲", "supporting", 3, false, false, "calm", "", ""⟩,
       ⟨"乙", "protagonist", 7, false, false, "bold", "", ""⟩]
        : List CharacterSuggestion) ≠ [])
    ∧ ((LLMService.normalize_identity_flags
        [⟨"甲", "supporting", 3, false, false, "calm", "", ""⟩,
         ⟨"乙", "protagonist", 7, false, false, "bold", "", ""⟩]
        "我来了").filter (·.is_main_character)).length = 1
    ∧ ((LLMService.normalize_identity_flags
        [⟨"甲", "supporting", 3, false, false, "calm", "", ""⟩,
         ⟨"乙", "protagonist", 7, false, false, "bold", "", ""⟩]
        "我来了").filter (·.is_story_self)).length ≤ 1 := by
  have hmain := claim_C7
    [⟨"甲", "supporting", 3, false, false, "calm", "", ""⟩,
     ⟨"乙", "protagonist", 7, false, false, "bold", "", ""⟩] "我来了" (by simp)
  exact ⟨by simp, hmain.1, hmain.2⟩

/-- Invariant of the voice-assignment loop of `_sanitize_character_voices`
while the catalog cannot be exhausted: `used` keeps exactly the handed-out
voices, every processed character ends with a stripped voice inside the
final `used` set but outside the starting one, and those voices are
pairwise distinct over the processing order. -/
theorem VideoService.sanitize_fold_spec (available : List String) (narrator : String)
    (hava : available.Nodup) (hstrip : ∀ v ∈ available, pyStrip v = v) :
    ∀ (items : List (Nat × CharacterSuggestion)) (used : List String)
      (asg : List (Nat × String)) (res1 : List String) (res2 : List (Nat × String)),
    items.foldl (VideoService.sanitizeVoiceStep available narrator) (used, asg)
      = (res1, res2) →
    narrator ∈ used →
    used.Nodup →
    (∀ u ∈ used, u ∈ available) →
    used.length + items.length ≤ available.length →
    (items.map (fun p => p.1)).Nodup →
    (∀ w ∈ asg, w.1 ∉ items.map (fun p => p.1)) →
    (∀ u ∈ used, u ∈ res1)
    ∧ res1.Nodup
    ∧ (∀ u ∈ res1, u ∈ available)
    ∧ res1.length ≤ used.length + items.length
    ∧ (∃ new, res2 = new ++ asg ∧ ∀ w ∈ new, w.1 ∈ items.map (fun p => p.1))
    ∧ (∀ p ∈ items,
        pyStrip ((VideoService.voiceWriteOf res2 p).voice_id) ∈ res1
        ∧ pyStrip ((VideoService.voiceWriteOf res2 p).voice_id) ∉ used)
    ∧ List.Pairwise (fun p q =>
        pyStrip ((VideoService.voiceWriteOf res2 p).voice_id)
        ≠ pyStrip ((VideoService.voiceWriteOf res2 q).voice_id)) items := by
  intro items
  induction items with
  | nil =>
    intro used asg res1 res2 hres hnar hnd hsub hlen _ _
    rw [List.foldl_nil] at hres
    injection hres with h1 h2
    subst h1
    subst h2
    exact ⟨fun u hu => hu, hnd, hsub, by simp, ⟨[], by simp, by simp⟩,
      by simp, by simp⟩
  | cons p rest ih =>
    intro used asg res1 res2 hres hnar hnd hsub hlen hidx hfresh
    obtain ⟨i, ch⟩ := p
    rw [List.foldl_cons] at hres
    simp only [List.map_cons] at hidx hfresh ⊢
    rw [List.nodup_cons] at hidx
    rw [List.length_cons] at hlen
    by_cases c1 : (pyStrip ch.voice_id ≠ "" && !used.contains (pyStrip ch.voice_id)
        && available.contains (pyStrip ch.voice_id)) = true
    · -- keep branch: the stored (stripped) voice is fresh and valid
      have hstep : VideoService.sanitizeVoiceStep available narrator (used, asg) (i, ch)
          = (pyStrip ch.voice_id :: used, asg) := by
        rw [VideoService.sanitizeVoiceStep]
        dsimp only
        rw [if_pos c1]
      simp only [Bool.and_eq_true, Bool.not_eq_true'] at c1
      have hnotin : pyStrip ch.voice_id ∉ used := by simpa using c1.1.2
      have havail : pyStrip ch.voice_id ∈ available := by simpa using c1.2
      rw [hstep] at hres
      obtain ⟨ih1, ih2, ih3, ih4, ⟨new, hnew, hnewidx⟩, ih6, ih7⟩ :=
        ih (pyStrip ch.voice_id :: used) asg res1 res2 hres
          (List.mem_cons_of_mem _ hnar)
          (List.nodup_cons.mpr ⟨hnotin, hnd⟩)
          (fun u hu => by
            rcases List.mem_cons.mp hu with h' | h'
            · exact h' ▸ havail
            · exact hsub u h')
          (by rw [List.length_cons]; omega)
          hidx.2
          (fun w hw => fun hmem => hfresh w hw (List.mem_cons_of_mem _ hmem))
      have hfn : res2.find? (fun w => w.1 = i) = none := by
        rw [hnew, List.find?_append]
        have h1 : new.find? (fun w => w.1 = i) = none := by
          rw [List.find?_eq_none]
          intro w hw
          simp only [decide_eq_true_eq]
          intro hwi
          exact hidx.1 (hwi ▸ hnewidx w hw)
        have h2 : asg.find? (fun w => w.1 = i) = none := by
          rw [List.find?_eq_none]
          intro w hw
          simp only [decide_eq_true_eq]
          intro hwi
          exact hfresh w hw (List.mem_cons.mpr (Or.inl hwi))
        rw [h1, h2]
        rfl
      have hheadv : pyStrip ((VideoService.voiceWriteOf res2 (i, ch)).voice_id)
          = pyStrip ch.voice_id := by
        rw [VideoService.voiceWriteOf]
        dsimp only
        rw [hfn]
      refine ⟨fun u hu => ih1 u (List.mem_cons_of_mem _ hu), ih2, ih3,
        by simp only [List.length_cons] at ih4 ⊢; omega,
        ⟨new, hnew, fun w hw => List.mem_cons_of_mem _ (hnewidx w hw)⟩, ?_, ?_⟩
      · intro q hq
        rcases List.mem_cons.mp hq with h' | h'
        · subst h'
          rw [hheadv]
          exact ⟨ih1 _ (List.mem_cons_self _ _), hnotin⟩
        · obtain ⟨hin, hout⟩ := ih6 q h'
          exact ⟨hin, fun hu => hout (List.mem_cons_of_mem _ hu)⟩
      · rw [List.pairwise_cons]
        refine ⟨?_, ih7⟩
        intro q hq
        rw [hheadv]
        intro heq
        exact (ih6 q hq).2 (heq ▸ List.mem_cons_self _ _)
    · -- the stored voice is rejected
      by_cases c2 : (VoiceCatalog.recommend_voice ch.role ch.personality "" ≠ ""
          && available.contains (VoiceCatalog.recommend_voice ch.role ch.personality "")
          && !used.contains (VoiceCatalog.recommend_voice ch.role ch.personality "")) = true
      · -- recommended branch
        have hstep : VideoService.sanitizeVoiceStep available narrator (used, asg) (i, ch)
            = (VoiceCatalog.recommend_voice ch.role ch.personality "" :: used,
               (i, VoiceCatalog.recommend_voice ch.role ch.personality "") :: asg) := by
          rw [VideoService.sanitizeVoiceStep]
          dsimp only
          rw [if_neg c1, if_pos c2]
        simp only [Bool.and_eq_true, Bool.not_eq_true'] at c2
        have hnotin : VoiceCatalog.recommend_voice ch.role ch.personality "" ∉ used := by
          simpa using c2.2
        have havail : VoiceCatalog.recommend_voice ch.role ch.personality "" ∈ available := by
          simpa using c2.1.2
        rw [hstep] at hres
        obtain ⟨ih1, ih2, ih3, ih4, ⟨new, hnew, hnewidx⟩, ih6, ih7⟩ :=
          ih (VoiceCatalog.recommend_voice ch.role ch.personality "" :: used)
            ((i, VoiceCatalog.recommend_voice ch.role ch.personality "") :: asg) res1 res2 hres
            (List.mem_cons_of_mem _ hnar)
            (List.nodup_cons.mpr ⟨hnotin, hnd⟩)
            (fun u hu => by
              rcases List.mem_cons.mp hu with h' | h'
              · exact h' ▸ havail
              · exact hsub u h')
            (by rw [List.length_cons]; omega)
            hidx.2
            (fun w hw => by
              rcases List.mem_cons.mp hw with h' | h'
              · subst h'
                exact hidx.1
              · exact fun hmem => hfresh w h' (List.mem_cons_of_mem _ hmem))
        have hfn : res2.find? (fun w => w.1 = i)
            = some (i, VoiceCatalog.recommend_voice ch.role ch.personality "") := by
          rw [hnew, List.find?_append]
          have h1 : new.find? (fun w => w.1 = i) = none := by
            rw [List.find?_eq_none]
            intro w hw
            simp only [decide_eq_true_eq]
            intro hwi
            exact hidx.1 (hwi ▸ hnewidx w hw)
          rw [h1, List.find?_cons]
          simp
        have hheadv : pyStrip ((VideoService.voiceWriteOf res2 (i, ch)).voice_id)
            = VoiceCatalog.recommend_voice ch.role ch.personality "" := by
          rw [VideoService.voiceWriteOf]
          dsimp only
          rw [hfn]
          exact hstrip _ havail
        refine ⟨fun u hu => ih1 u (List.mem_cons_of_mem _ hu), ih2, ih3,
          by simp only [List.length_cons] at ih4 ⊢; omega,
          ⟨new ++ [(i, VoiceCatalog.recommend_voice ch.role ch.personality "")],
           by rw [hnew, List.append_assoc]; rfl,
           fun w hw => by
            rcases List.mem_append.mp hw with h' | h'
            · exact List.mem_cons_of_mem _ (hnewidx w h')
            · rcases List.mem_singleton.mp h' with rfl
              exact List.mem_cons_self _ _⟩, ?_, ?_⟩
        · intro q hq
          rcases List.mem_cons.mp hq with h' | h'
          · subst h'
            rw [hheadv]
            exact ⟨ih1 _ (List.mem_cons_self _ _), hnotin⟩
          · obtain ⟨hin, hout⟩ := ih6 q h'
            exact ⟨hin, fun hu => hout (List.mem_cons_of_mem _ hu)⟩
        · rw [List.pairwise_cons]
          refine ⟨?_, ih7⟩
          intro q hq
          rw [hheadv]
          intro heq
          exact (ih6 q hq).2 (heq ▸ List.mem_cons_self _ _)
      · cases hfind : available.find? (fun v => !used.contains v) with
        | none =>
          -- the catalog would be exhausted: impossible under the length bound
          exfalso
          rw [List.find?_eq_none] at hfind
          have hsubav : ∀ v ∈ available, v ∈ used := by
            intro v hv
            have := hfind v hv
            simpa using this
          have := List.Subperm.length_le (List.subperm_of_subset hava hsubav)
          omega
        | some fv =>
          -- fallback branch: first unused catalog voice
          have hfv := List.find?_some hfind
          have hnotin : fv ∉ used := by simpa using hfv
          have havail : fv ∈ available := List.mem_of_find?_eq_some hfind
          have hstep : VideoService.sanitizeVoiceStep available narrator (used, asg) (i, ch)
              = (fv :: used, (i, fv) :: asg) := by
            rw [VideoService.sanitizeVoiceStep]
            dsimp only
            rw [if_neg c1, if_neg c2, hfind]
          rw [hstep] at hres
          obtain ⟨ih1, ih2, ih3, ih4, ⟨new, hnew, hnewidx⟩, ih6, ih7⟩ :=
            ih (fv :: used) ((i, fv) :: asg) res1 res2 hres
              (List.mem_cons_of_mem _ hnar)
              (List.nodup_cons.mpr ⟨hnotin, hnd⟩)
              (fun u hu => by
                rcases List.mem_cons.mp hu with h' | h'
                · exact h' ▸ havail
                · exact hsub u h')
              (by rw [List.length_cons]; omega)
              hidx.2
              (fun w hw => by
                rcases List.mem_cons.mp hw with h' | h'
                · subst h'
                  exact hidx.1
                · exact fun hmem => hfresh w h' (List.mem_cons_of_mem _ hmem))
          have hfn : res2.find? (fun w => w.1 = i) = some (i, fv) := by
            rw [hnew, List.find?_append]
            have h1 : new.find? (fun w => w.1 = i) = none := by
              rw [List.find?_eq_none]
              intro w hw
              simp only [decide_eq_true_eq]
              intro hwi
              exact hidx.1 (hwi ▸ hnewidx w hw)
            rw [h1, List.find?_cons]
            simp
          have hheadv : pyStrip ((VideoService.voiceWriteOf res2 (i, ch)).voice_id)
              = fv := by
            rw [VideoService.voiceWriteOf]
            dsimp only
            rw [hfn]
            exact hstrip _ havail
          refine ⟨fun u hu => ih1 u (List.mem_cons_of_mem _ hu), ih2, ih3,
            by simp only [List.length_cons] at ih4 ⊢; omega,
            ⟨new ++ [(i, fv)],
             by rw [hnew, List.append_assoc]; rfl,
             fun w hw => by
              rcases List.mem_append.mp hw with h' | h'
              · exact List.mem_cons_of_mem _ (hnewidx w h')
              · rcases List.mem_singleton.mp h' with rfl
                exact List.mem_cons_self _ _⟩, ?_, ?_⟩
          · intro q hq
            rcases List.mem_cons.mp hq with h' | h'
            · subst h'
              rw [hheadv]
              exact ⟨ih1 _ (List.mem_cons_self _ _), hnotin⟩
            · obtain ⟨hin, hout⟩ := ih6 q h'
              exact ⟨hin, fun hu => hout (List.mem_cons_of_mem _ hu)⟩
          · rw [List.pairwise_cons]
            refine ⟨?_, ih7⟩
            intro q hq
            rw [hheadv]
            intro heq
            exact (ih6 q hq).2 (heq ▸ List.mem_cons_self _ _)

/-- `_sanitize_character_voices` at the default narrator voice, written as
the index-keyed writes of the loop applied to the original order. -/
theorem VideoService.sanitize_eq (cs : List CharacterSuggestion) (h : cs ≠ []) :
    VideoService.sanitize_character_voices cs VideoService.NARRATOR_VOICE_ID
      = cs.enum.map (fun p => VideoService.voiceWriteOf
          (((pySortDesc (fun p => LLMService.importanceKey p.2) cs.enum).foldl
            (VideoService.sanitizeVoiceStep VoiceCatalog.VOICE_IDS
              VideoService.NARRATOR_VOICE_ID)
            ([VideoService.NARRATOR_VOICE_ID], [])).2) p) := by
  rw [VideoService.sanitize_character_voices, if_neg h]
  rfl

/-- Claim C8 (amended): for a character list of at most nine characters
(the ten-voice catalog cannot be exhausted: one slot is always reserved
for the narrator), voice sanitization gives pairwise distinct voice ids
and never assigns the narrator voice to any character - not even one
whose input carried it. When the catalog is exhausted the loop's last
resort does hand out the narrator voice (see the counterexample). -/
theorem claim_C8 (cs : List CharacterSuggestion) (h9 : cs.length ≤ 9) :
    List.Pairwise (fun a b => a.voice_id ≠ b.voice_id)
      (VideoService.sanitize_character_voices cs VideoService.NARRATOR_VOICE_ID)
    ∧ ∀ c ∈ VideoService.sanitize_character_voices cs VideoService.NARRATOR_VOICE_ID,
        c.voice_id ≠ VideoService.NARRATOR_VOICE_ID := by
  by_cases h : cs = []
  · subst h
    constructor <;> simp [VideoService.sanitize_character_voices]
  · have hperm : (pySortDesc (fun p : Nat × CharacterSuggestion =>
        LLMService.importanceKey p.2) cs.enum).Perm cs.enum := pySortDesc_perm _ _
    obtain ⟨res1, res2, hres⟩ : ∃ r1 r2,
        (pySortDesc (fun p : Nat × CharacterSuggestion =>
          LLMService.importanceKey p.2) cs.enum).foldl
          (VideoService.sanitizeVoiceStep VoiceCatalog.VOICE_IDS
            VideoService.NARRATOR_VOICE_ID)
          ([VideoService.NARRATOR_VOICE_ID], []) = (r1, r2) := ⟨_, _, rfl⟩
    have hlen : (1 : Nat) + (pySortDesc (fun p : Nat × CharacterSuggestion =>
        LLMService.importanceKey p.2) cs.enum).length
        ≤ VoiceCatalog.VOICE_IDS.length := by
      rw [hperm.length_eq, List.enum_length]
      have hv : VoiceCatalog.VOICE_IDS.length = 10 := rfl
      omega
    have hidx : ((pySortDesc (fun p : Nat × CharacterSuggestion =>
        LLMService.importanceKey p.2) cs.enum).map (fun p => p.1)).Nodup := by
      have hpm := hperm.map (fun p : Nat × CharacterSuggestion => p.1)
      rw [List.Perm.nodup_iff hpm]
      show (List.map Prod.fst cs.enum).Nodup
      rw [List.enum_map_fst]
      exact List.nodup_range _
    obtain ⟨hc1, hc2, hc3, hc4, hc5, hc6, hc7⟩ :=
      VideoService.sanitize_fold_spec VoiceCatalog.VOICE_IDS
        VideoService.NARRATOR_VOICE_ID (by decide) (by decide)
        (pySortDesc (fun p : Nat × CharacterSuggestion =>
          LLMService.importanceKey p.2) cs.enum)
        [VideoService.NARRATOR_VOICE_ID] [] res1 res2 hres
        (List.mem_singleton_self _)
        (List.nodup_singleton _)
        (fun u hu => by rcases List.mem_singleton.mp hu with rfl; decide)
        (by simpa using hlen)
        hidx
        (fun w hw => absurd hw (List.not_mem_nil w))
    have hval2 : VideoService.sanitize_character_voices cs VideoService.NARRATOR_VOICE_ID
        = cs.enum.map (fun p => VideoService.voiceWriteOf res2 p) := by
      rw [VideoService.sanitize_eq cs h, hres]
    rw [hval2]
    constructor
    · rw [List.pairwise_map]
      have hpw := (List.Perm.pairwise_iff (fun hxy => hxy.symm) hperm).mp hc7
      exact hpw.imp (fun hne heq => hne (congrArg pyStrip heq))
    · intro c hcmem
      rw [List.mem_map] at hcmem
      obtain ⟨p, hp, rfl⟩ := hcmem
      have hp' := hperm.mem_iff.mpr hp
      have h6 := hc6 p hp'
      intro heq
      apply h6.2
      rw [heq]
      exact List.mem_singleton_self _

/-- Claim C8 counterexample: ten characters with empty stored voices
exhaust the catalog; the loop's last resort assigns the narrator voice to
the tenth character even though its input did not carry it. -/
theorem claim_C8_counterexample :
    ((VideoService.sanitize_character_voices
        (List.replicate 10 (⟨"", "", 0, false, false, "", "", ""⟩ : CharacterSuggestion))
        VideoService.NARRATOR_VOICE_ID).map (·.voice_id)).getLast?
      = some VideoService.NARRATOR_VOICE_ID
    ∧ (⟨"", "", 0, false, false, "", "", ""⟩ : CharacterSuggestion).voice_id
      ≠ VideoService.NARRATOR_VOICE_ID := by
  constructor
  · decide
  · decide

/-- Claim C8 witness: two characters with empty voices get distinct,
non-narrator voices. -/
theorem claim_C8_witness :
    ([⟨"甲", "hero", 5, false, false, "", "", ""⟩,
      ⟨"乙", "villain", 2, false, false, "", "", ""⟩]
      : List CharacterSuggestion).length ≤ 9
    ∧ List.Pairwise (fun a b => a.voice_id ≠ b.voice_id)
        (VideoService.sanitize_character_voices
          [⟨"甲", "hero", 5, false, false, "", "", ""⟩,
           ⟨"乙", "villain", 2, false, false, "", "", ""⟩]
          VideoService.NARRATOR_VOICE_ID)
    ∧ ∀ c ∈ VideoService.sanitize_character_voices
          [⟨"甲", "hero", 5, false, false, "", "", ""⟩,
           ⟨"乙", "villain", 2, false, false, "", "", ""⟩]
          VideoService.NARRATOR_VOICE_ID,
        c.voice_id ≠ VideoService.NARRATOR_VOICE_ID := by
  have hm := claim_C8
    [⟨"甲", "hero", 5, false, false, "", "", ""⟩,
     ⟨"乙", "villain", 2, false, false, "", "", ""⟩] (by decide)
  exact ⟨by decide, hm.1, hm.2⟩

end GenVideo
